import Mathlib

namespace SpineDB

inductive SpineIntegrityError where
  | duplicateObjectClassName (name : String)
  | missingObjectClassId
  | objectClassNotFound
  | duplicateObjectName (classId : Nat) (name : String)
  | missingObjectId
  | objectNotFound
  | objectClassIdNotFound
  | cannotChangeField (f : String)
  | missingParameterValueId
  | parameterValueNotFound
  | missingParameterDefinitionId
  | parameterDefinitionNotFound
  | entityNotFound
  | entityClassMismatch
  | duplicateParameterValue
  | valueNotInValueList
  | missingEntityId
deriving DecidableEq, Repr

deriving instance DecidableEq for Except

structure ObjectClassIn where
  name : String
  type_id : Option Nat := none
deriving DecidableEq, Repr

/-- Modelled from the spec: `check_object_class` is imported from the module
`check_functions`, which is not among the provided sources.  Per the spec's insert
algorithm, the rule set for an object class checks the uniqueness key (the name)
against the index built from the snapshot plus already-accepted siblings. -/
def check_object_class (item : ObjectClassIn) (object_class_names : List String) :
    Except SpineIntegrityError Unit :=
  if item.name ∈ object_class_names then .error (.duplicateObjectClassName item.name)
  else .ok ()

def checkObjectClassesForInsertFrom (ocType : Nat) (strict : Bool) (names : List String)
    (acc : List ObjectClassIn) (log : List SpineIntegrityError) :
    List ObjectClassIn → Except SpineIntegrityError (List ObjectClassIn × List SpineIntegrityError)
  | [] => .ok (acc, log)
  | item :: rest =>
    match check_object_class item names with
    | .ok _ =>
        checkObjectClassesForInsertFrom ocType strict (names ++ [item.name])
          (acc ++ [{ item with type_id := some ocType }]) log rest
    | .error e =>
        if strict then .error e
        else checkObjectClassesForInsertFrom ocType strict names acc (log ++ [e]) rest

def check_object_classes_for_insert (ocType : Nat) (existingNames : List String)
    (items : List ObjectClassIn) (strict : Bool) :
    Except SpineIntegrityError (List ObjectClassIn × List SpineIntegrityError) :=
  checkObjectClassesForInsertFrom ocType strict existingNames [] [] items

def insertRun (ocType : Nat) (names : List String) :
    List ObjectClassIn → List ObjectClassIn × List SpineIntegrityError
  | [] => ([], [])
  | item :: rest =>
    match check_object_class item names with
    | .ok _ =>
        let r := insertRun ocType (names ++ [item.name]) rest
        ({ item with type_id := some ocType } :: r.1, r.2)
    | .error e =>
        let r := insertRun ocType names rest
        (r.1, e :: r.2)

theorem checkFrom_eq_insertRun (ocType : Nat) (names : List String)
    (acc : List ObjectClassIn) (log : List SpineIntegrityError) (items : List ObjectClassIn) :
    checkObjectClassesForInsertFrom ocType false names acc log items =
      .ok (acc ++ (insertRun ocType names items).1, log ++ (insertRun ocType names items).2) := by
  induction items generalizing names acc log with
  | nil => simp [checkObjectClassesForInsertFrom, insertRun]
  | cons item rest ih =>
    simp only [checkObjectClassesForInsertFrom, insertRun, check_object_class]
    by_cases h : item.name ∈ names
    · simp [h, ih, List.append_assoc]
    · simp [h, ih, List.append_assoc]

def insertNamesAfter (names : List String) : List ObjectClassIn → List String
  | [] => names
  | item :: rest =>
    if item.name ∈ names then insertNamesAfter names rest
    else insertNamesAfter (names ++ [item.name]) rest

theorem insertRun_append (ocType : Nat) (names : List String) (xs ys : List ObjectClassIn) :
    insertRun ocType names (xs ++ ys) =
      ((insertRun ocType names xs).1 ++ (insertRun ocType (insertNamesAfter names xs) ys).1,
       (insertRun ocType names xs).2 ++ (insertRun ocType (insertNamesAfter names xs) ys).2) := by
  induction xs generalizing names with
  | nil => simp [insertRun, insertNamesAfter]
  | cons x rest ih =>
    simp only [List.cons_append, insertRun, check_object_class, insertNamesAfter]
    by_cases h : x.name ∈ names
    · simp [h, ih]
    · simp [h, ih]

theorem checkFrom_strict_eq (ocType : Nat) (names : List String) (acc : List ObjectClassIn)
    (log : List SpineIntegrityError) (xs : List ObjectClassIn) :
    checkObjectClassesForInsertFrom ocType true names acc log xs =
      (match (insertRun ocType names xs).2 with
       | [] => .ok (acc ++ (insertRun ocType names xs).1, log)
       | e :: _ => .error e) := by
  induction xs generalizing names acc log with
  | nil => simp [checkObjectClassesForInsertFrom, insertRun]
  | cons x rest ih =>
    simp only [checkObjectClassesForInsertFrom, insertRun, check_object_class]
    by_cases h : x.name ∈ names
    · simp [h]
    · simp [h, ih, List.append_assoc]

theorem mem_insertNamesAfter (names : List String) (xs : List ObjectClassIn) (n : String)
    (h : n ∈ names) : n ∈ insertNamesAfter names xs := by
  induction xs generalizing names with
  | nil => simpa [insertNamesAfter] using h
  | cons x rest ih =>
    simp only [insertNamesAfter]
    by_cases hx : x.name ∈ names
    · simp [hx]; exact ih _ h
    · simp [hx]; exact ih _ (List.mem_append_left _ h)

theorem self_mem_insertNamesAfter (names : List String) (xs : List ObjectClassIn)
    (x : ObjectClassIn) (hx : x ∈ xs) : x.name ∈ insertNamesAfter names xs := by
  induction xs generalizing names with
  | nil => cases hx
  | cons y rest ih =>
    rcases List.mem_cons.mp hx with rfl | hmem
    · simp only [insertNamesAfter]
      by_cases h : x.name ∈ names
      · simp [h]; exact mem_insertNamesAfter _ _ _ h
      · simp [h]
        exact mem_insertNamesAfter _ _ _ (List.mem_append_right _ (List.mem_singleton.mpr rfl))
    · simp only [insertNamesAfter]
      by_cases h : y.name ∈ names
      · simp [h]; exact ih _ hmem
      · simp [h]; exact ih _ hmem

theorem insertRun_accepted_not_mem (ocType : Nat) (names : List String) (xs : List ObjectClassIn)
    (x : ObjectClassIn) (hx : x ∈ (insertRun ocType names xs).1) : x.name ∉ names := by
  induction xs generalizing names with
  | nil => simp [insertRun] at hx
  | cons y rest ih =>
    simp only [insertRun, check_object_class] at hx
    by_cases h : y.name ∈ names
    · simp [h] at hx
      exact ih _ hx
    · simp [h] at hx
      rcases hx with rfl | hx
      · simpa using h
      · intro hmem
        exact ih _ hx (List.mem_append_left _ hmem)

theorem insertRun_accepted_mem_after (ocType : Nat) (names : List String)
    (xs : List ObjectClassIn) (x : ObjectClassIn)
    (hx : x ∈ (insertRun ocType names xs).1) : x.name ∈ insertNamesAfter names xs := by
  induction xs generalizing names with
  | nil => simp [insertRun] at hx
  | cons y rest ih =>
    simp only [insertRun, check_object_class] at hx
    simp only [insertNamesAfter]
    by_cases h : y.name ∈ names
    · simp [h] at hx ⊢
      exact ih _ hx
    · simp [h] at hx ⊢
      rcases hx with rfl | hx
      · exact mem_insertNamesAfter _ _ _ (List.mem_append_right _ (by simp))
      · exact ih _ hx

theorem insertRun_error_mem_after (ocType : Nat) (names : List String)
    (xs : List ObjectClassIn) (n : String)
    (hx : SpineIntegrityError.duplicateObjectClassName n ∈ (insertRun ocType names xs).2) :
    n ∈ insertNamesAfter names xs := by
  induction xs generalizing names with
  | nil => simp [insertRun] at hx
  | cons y rest ih =>
    simp only [insertRun, check_object_class] at hx
    simp only [insertNamesAfter]
    by_cases h : y.name ∈ names
    · simp [h] at hx ⊢
      rcases hx with hy | hx
      · exact mem_insertNamesAfter _ _ _ (hy ▸ h)
      · exact ih _ hx
    · simp [h] at hx ⊢
      exact ih _ hx

theorem insertRun_dup_count (ocType : Nat) (names : List String) (xs : List ObjectClassIn)
    (n : String) (hn : n ∈ names) :
    (insertRun ocType names xs).2.count (.duplicateObjectClassName n) =
      xs.countP (fun x => x.name = n) := by
  induction xs generalizing names with
  | nil => simp [insertRun]
  | cons y rest ih =>
    simp only [insertRun, check_object_class, List.countP_cons]
    by_cases h : y.name ∈ names
    · by_cases hyn : y.name = n
      · subst hyn
        simp [h, List.count_cons, ih _ hn]
      · simp [h, hyn, List.count_cons, ih _ hn]
    · have hyn : y.name ≠ n := fun hh => h (hh ▸ hn)
      simp [h, hyn, ih (names ++ [y.name]) (List.mem_append_left _ hn)]

theorem insertRun_partition (ocType : Nat) (names : List String) (xs : List ObjectClassIn) :
    (insertRun ocType names xs).1.length + (insertRun ocType names xs).2.length = xs.length ∧
    List.Sublist ((insertRun ocType names xs).1.map (fun x => x.name))
      (xs.map (fun x => x.name)) := by
  induction xs generalizing names with
  | nil => simp [insertRun]
  | cons y rest ih =>
    simp only [insertRun, check_object_class]
    by_cases h : y.name ∈ names
    · refine ⟨?_, ?_⟩
      · have h1 := (ih names).1
        simp [h]; omega
      · simp only [h, if_neg, List.map_cons]
        exact (ih names).2.cons _
    · refine ⟨?_, ?_⟩
      · have h1 := (ih (names ++ [y.name])).1
        simp [h]; omega
      · simp only [h, List.map_cons]
        exact List.Sublist.cons₂ _ ((ih (names ++ [y.name])).2)

/-- C1: for the object-class kind (the representative the claim cites), an insert
batch containing two candidates that share the uniqueness key (the name) accepts
exactly the first such candidate — among the accepted items the first carrier of
the name is the only one — and every later same-named candidate (the second one
included) is reported as an integrity violation: appended to the error log in
non-strict mode, raised in strict mode.  This holds because each accepted
candidate's name is inserted into the uniqueness index before later candidates in
the same call are checked. -/
theorem C1_intra_batch_uniqueness (ocType : Nat) (existing : List String)
    (pre mid post : List ObjectClassIn) (a b : ObjectClassIn) (hab : b.name = a.name)
    (hfresh : a.name ∉ insertNamesAfter existing pre) :
    (∃ acc log,
      check_object_classes_for_insert ocType existing (pre ++ a :: (mid ++ b :: post)) false =
        .ok (acc, log) ∧
      acc.filter (fun x => x.name = a.name) = [{ a with type_id := some ocType }] ∧
      log.count (.duplicateObjectClassName a.name) =
        (mid ++ b :: post).countP (fun x => x.name = a.name) ∧
      1 ≤ (mid ++ b :: post).countP (fun x => x.name = a.name)) ∧
    (∀ s, check_object_classes_for_insert ocType existing (pre ++ a :: mid) true = .ok s →
      check_object_classes_for_insert ocType existing (pre ++ a :: (mid ++ b :: post)) true =
        .error (.duplicateObjectClassName a.name)) := by
  constructor
  · have hdec := insertRun_append ocType existing pre (a :: (mid ++ b :: post))
    have hstep : insertRun ocType (insertNamesAfter existing pre) (a :: (mid ++ b :: post)) =
        ({ a with type_id := some ocType } ::
            (insertRun ocType (insertNamesAfter existing pre ++ [a.name]) (mid ++ b :: post)).1,
          (insertRun ocType (insertNamesAfter existing pre ++ [a.name]) (mid ++ b :: post)).2) := by
      simp [insertRun, check_object_class, hfresh]
    refine ⟨(insertRun ocType existing (pre ++ a :: (mid ++ b :: post))).1,
      (insertRun ocType existing (pre ++ a :: (mid ++ b :: post))).2, ?_, ?_, ?_, ?_⟩
    · simpa [check_object_classes_for_insert] using
        checkFrom_eq_insertRun ocType existing [] [] (pre ++ a :: (mid ++ b :: post))
    · rw [hdec]
      simp only [List.filter_append]
      have h1 : (insertRun ocType existing pre).1.filter (fun x => x.name = a.name) = [] := by
        rw [List.filter_eq_nil_iff]
        intro x hx
        have := insertRun_accepted_mem_after ocType existing pre x hx
        simp only [decide_eq_true_eq]
        intro hxa
        exact hfresh (hxa ▸ this)
      rw [hstep]
      have h2 : (insertRun ocType (insertNamesAfter existing pre ++ [a.name])
          (mid ++ b :: post)).1.filter (fun x => x.name = a.name) = [] := by
        rw [List.filter_eq_nil_iff]
        intro x hx
        have := insertRun_accepted_not_mem ocType _ _ x hx
        simp only [decide_eq_true_eq]
        intro hxa
        exact this (List.mem_append_right _ (by simp [hxa]))
      simp [h1, h2]
    · rw [hdec]
      simp only [List.count_append]
      have h1 : (insertRun ocType existing pre).2.count
          (SpineIntegrityError.duplicateObjectClassName a.name) = 0 := by
        rw [List.count_eq_zero]
        intro hmem
        exact hfresh (insertRun_error_mem_after ocType existing pre a.name hmem)
      rw [hstep, h1]
      have h2 := insertRun_dup_count ocType (insertNamesAfter existing pre ++ [a.name])
        (mid ++ b :: post) a.name (List.mem_append_right _ (by simp))
      simpa using h2
    · have : 0 < (mid ++ b :: post).countP (fun x => x.name = a.name) := by
        rw [List.countP_pos_iff]
        exact ⟨b, List.mem_append_right _ (List.mem_cons_self _ _), by simp [hab]⟩
      omega
  · intro s hok
    have hstrict := checkFrom_strict_eq ocType existing [] [] (pre ++ a :: mid)
    rw [check_object_classes_for_insert] at hok
    rw [hok] at hstrict
    have hlogempty : (insertRun ocType existing (pre ++ a :: mid)).2 = [] := by
      rcases hl : (insertRun ocType existing (pre ++ a :: mid)).2 with _ | ⟨e, tl⟩
      · rfl
      · rw [hl] at hstrict
        simp at hstrict
    have hassoc : pre ++ a :: (mid ++ b :: post) = (pre ++ a :: mid) ++ (b :: post) := by
      simp
    have hbmem : b.name ∈ insertNamesAfter existing (pre ++ a :: mid) := by
      rw [hab]
      exact self_mem_insertNamesAfter existing _ a
        (List.mem_append_right _ (List.mem_cons_self _ _))
    have hdec := insertRun_append ocType existing (pre ++ a :: mid) (b :: post)
    have hbstep : insertRun ocType (insertNamesAfter existing (pre ++ a :: mid)) (b :: post) =
        ((insertRun ocType (insertNamesAfter existing (pre ++ a :: mid)) post).1,
          SpineIntegrityError.duplicateObjectClassName b.name ::
            (insertRun ocType (insertNamesAfter existing (pre ++ a :: mid)) post).2) := by
      simp [insertRun, check_object_class, hbmem]
    rw [check_object_classes_for_insert, hassoc, checkFrom_strict_eq, hdec, hbstep, hlogempty,
      hab]
    simp

theorem C1_intra_batch_uniqueness_witness :
    check_object_classes_for_insert 7 ["other"]
        [⟨"tank", none⟩, ⟨"tank", none⟩] true =
      .error (.duplicateObjectClassName "tank") ∧
    check_object_classes_for_insert 7 ["other"]
        [⟨"tank", none⟩, ⟨"tank", none⟩] false =
      .ok ([⟨"tank", some 7⟩], [.duplicateObjectClassName "tank"]) := by
  have h := C1_intra_batch_uniqueness 7 ["other"] [] [] [] ⟨"tank", none⟩ ⟨"tank", none⟩
    rfl (by decide)
  refine ⟨?_, by decide⟩
  have hres := h.2 ([⟨"tank", some 7⟩], []) (by decide)
  simpa using hres

structure ObjectClassRow where
  id : Nat
  name : String
deriving DecidableEq, Repr

structure ObjectClassUpd where
  id : Option Nat := none
  name : Option String := none
deriving DecidableEq, Repr

def checkObjectClassesForUpdateFrom (strict : Bool) (dict : List (Nat × String))
    (names : List String) (acc : List ObjectClassUpd) (log : List SpineIntegrityError) :
    List ObjectClassUpd →
      Except SpineIntegrityError (List ObjectClassUpd × List SpineIntegrityError)
  | [] => .ok (acc, log)
  | item :: rest =>
    match item.id with
    | none =>
      if strict then .error .missingObjectClassId
      else checkObjectClassesForUpdateFrom strict dict names acc
        (log ++ [.missingObjectClassId]) rest
    | some id =>
      match dict.find? (fun p => p.1 = id) with
      | none =>
        if strict then .error .objectClassNotFound
        else checkObjectClassesForUpdateFrom strict dict names acc
          (log ++ [.objectClassNotFound]) rest
      | some cur =>
        let dict1 := dict.eraseP (fun p => p.1 = id)
        let names1 := names.erase cur.2
        let mergedName := item.name.getD cur.2
        match check_object_class ⟨mergedName, none⟩ names1 with
        | .ok _ =>
          checkObjectClassesForUpdateFrom strict (dict1 ++ [(id, mergedName)])
            (names1 ++ [mergedName]) (acc ++ [item]) log rest
        | .error e =>
          if strict then .error e
          else checkObjectClassesForUpdateFrom strict dict1 names1 acc (log ++ [e]) rest

def check_object_classes_for_update (rows : List ObjectClassRow)
    (items : List ObjectClassUpd) (strict : Bool) :
    Except SpineIntegrityError (List ObjectClassUpd × List SpineIntegrityError) :=
  checkObjectClassesForUpdateFrom strict (rows.map (fun r => (r.id, r.name)))
    (rows.map (fun r => r.name)) [] [] items

def check_immutable_fields (fields : List (String × Option (Option Nat) × Option Nat)) :
    Except SpineIntegrityError Unit :=
  match fields.find? (fun f =>
    match f.2.1 with
    | none => false
    | some v => v != f.2.2) with
  | some f => .error (.cannotChangeField f.1)
  | none => .ok ()

structure ObjectRow where
  id : Nat
  class_id : Nat
  name : String
deriving DecidableEq, Repr

structure ObjectUpd where
  id : Option Nat := none
  name : Option String := none
  class_id : Option (Option Nat) := none
deriving DecidableEq, Repr

/-- Modelled from the spec: `check_object` is imported from `check_functions`, which is
not among the provided sources.  Per the spec's rule set, an object's owning class id
must reference an existing object class, and the uniqueness key (class id, name) must
not collide with the index built from the snapshot plus accepted siblings. -/
def check_object (class_id : Option Nat) (name : String)
    (object_names : List (Nat × String)) (object_class_id_list : List Nat) :
    Except SpineIntegrityError Unit :=
  match class_id with
  | none => .error .objectClassIdNotFound
  | some c =>
    if c ∉ object_class_id_list then .error .objectClassIdNotFound
    else if (c, name) ∈ object_names then .error (.duplicateObjectName c name)
    else .ok ()

def checkObjectsForUpdateFrom (strict : Bool) (classes : List Nat)
    (dict : List (Nat × String × Nat)) (names : List (Nat × String))
    (acc : List ObjectUpd) (log : List SpineIntegrityError) :
    List ObjectUpd → Except SpineIntegrityError (List ObjectUpd × List SpineIntegrityError)
  | [] => .ok (acc, log)
  | item :: rest =>
    match item.id with
    | none =>
      if strict then .error .missingObjectId
      else checkObjectsForUpdateFrom strict classes dict names acc
        (log ++ [.missingObjectId]) rest
    | some id =>
      match dict.find? (fun p => p.1 = id) with
      | none =>
        if strict then .error .objectNotFound
        else checkObjectsForUpdateFrom strict classes dict names acc
          (log ++ [.objectNotFound]) rest
      | some cur =>
        let dict1 := dict.eraseP (fun p => p.1 = id)
        let names1 := names.erase (cur.2.2, cur.2.1)
        match check_immutable_fields [("class_id", item.class_id, some cur.2.2)] with
        | .error e =>
          if strict then .error e
          else checkObjectsForUpdateFrom strict classes dict1 names1 acc (log ++ [e]) rest
        | .ok _ =>
          let mergedName := item.name.getD cur.2.1
          let mergedClass := item.class_id.getD (some cur.2.2)
          match check_object mergedClass mergedName names1 classes with
          | .ok _ =>
            checkObjectsForUpdateFrom strict classes
              (dict1 ++ [(id, mergedName, mergedClass.getD cur.2.2)])
              (names1 ++ [(mergedClass.getD cur.2.2, mergedName)]) (acc ++ [item]) log rest
          | .error e =>
            if strict then .error e
            else checkObjectsForUpdateFrom strict classes dict1 names1 acc (log ++ [e]) rest

def check_objects_for_update (classes : List Nat) (rows : List ObjectRow)
    (items : List ObjectUpd) (strict : Bool) :
    Except SpineIntegrityError (List ObjectUpd × List SpineIntegrityError) :=
  checkObjectsForUpdateFrom strict classes (rows.map (fun r => (r.id, r.name, r.class_id)))
    (rows.map (fun r => (r.class_id, r.name))) [] [] items

structure ParameterValueRow where
  id : Nat
  parameter_definition_id : Nat
  object_id : Option Nat := none
  relationship_id : Option Nat := none
  alternative_id : Nat := 1
deriving DecidableEq, Repr

structure ParameterValueCur where
  parameter_definition_id : Option Nat := none
  object_id : Option Nat := none
  relationship_id : Option Nat := none
  alternative_id : Option Nat := none
  value : Option String := none
deriving DecidableEq, Repr

structure ParameterValueUpd where
  id : Option Nat := none
  parameter_definition_id : Option (Option Nat) := none
  object_id : Option (Option Nat) := none
  relationship_id : Option (Option Nat) := none
  alternative_id : Option (Option Nat) := none
  value : Option (Option String) := none
  entity_id : Option Nat := none
  entity_class_id : Option Nat := none
deriving DecidableEq, Repr

structure ParameterDefinitionRef where
  id : Nat
  object_class_id : Option Nat := none
  relationship_class_id : Option Nat := none
  parameter_value_list_id : Option Nat := none
deriving DecidableEq, Repr

structure EntityRef where
  id : Nat
  class_id : Nat
deriving DecidableEq, Repr

/-- Modelled from the spec: `check_parameter_value` is imported from `check_functions`,
which is not among the provided sources.  Per the spec's rule set and the index
structures the caller builds: the definition must exist; the value must reference an
existing object or relationship whose class equals the definition's owning class; the
uniqueness key (entity id, definition id) must be absent from the index of committed
plus accepted sibling values; and when the definition references a known value list, a
supplied value must be a member of it.  The caller passes no alternative data, so no
rule here can depend on alternatives. -/
def check_parameter_value (pd : Option Nat) (object_id relationship_id : Option Nat)
    (value : Option String) (objVals relVals : List (Nat × Option Nat))
    (defs : List ParameterDefinitionRef) (objs rels : List EntityRef)
    (vls : List (Nat × List String)) : Except SpineIntegrityError Unit :=
  match pd with
  | none => .error .missingParameterDefinitionId
  | some d =>
    match defs.find? (fun r => r.id = d) with
    | none => .error .parameterDefinitionNotFound
    | some defRow =>
      match ((match object_id with
             | some o =>
               match objs.find? (fun e => e.id = o) with
               | none => .error .objectNotFound
               | some e =>
                 if defRow.object_class_id ≠ some e.class_id then .error .entityClassMismatch
                 else if (o, some d) ∈ objVals then .error .duplicateParameterValue
                 else .ok ()
             | none =>
               match relationship_id with
               | some r =>
                 match rels.find? (fun e => e.id = r) with
                 | none => .error .entityNotFound
                 | some e =>
                   if defRow.relationship_class_id ≠ some e.class_id then
                     .error .entityClassMismatch
                   else if (r, some d) ∈ relVals then .error .duplicateParameterValue
                   else .ok ()
               | none => .error .missingEntityId) :
          Except SpineIntegrityError Unit) with
      | .error e => .error e
      | .ok _ =>
        match defRow.parameter_value_list_id with
        | none => .ok ()
        | some vlId =>
          match vls.find? (fun p => p.1 = vlId) with
          | none => .ok ()
          | some vl =>
            match value with
            | none => .ok ()
            | some v => if v ∈ vl.2 then .ok () else .error .valueNotInValueList

def pvSetDefaults (item : ParameterValueUpd) : ParameterValueUpd :=
  let item1 :=
    if item.object_id.isSome then
      { item with relationship_id := some (item.relationship_id.getD none) }
    else item
  if item1.relationship_id.isSome then
    { item1 with object_id := some (item1.object_id.getD none) }
  else item1

def pvMerge (cur : ParameterValueCur) (item : ParameterValueUpd) : ParameterValueCur :=
  { parameter_definition_id := item.parameter_definition_id.getD cur.parameter_definition_id
    object_id := item.object_id.getD cur.object_id
    relationship_id := item.relationship_id.getD cur.relationship_id
    alternative_id := item.alternative_id.getD cur.alternative_id
    value := item.value.getD cur.value }

def checkParameterValuesForUpdateFrom (strict : Bool)
    (defs : List ParameterDefinitionRef) (objs rels : List EntityRef)
    (vls : List (Nat × List String)) (dict : List (Nat × ParameterValueCur))
    (objVals relVals : List (Nat × Option Nat)) (acc : List ParameterValueUpd)
    (log : List SpineIntegrityError) :
    List ParameterValueUpd →
      Except SpineIntegrityError (List ParameterValueUpd × List SpineIntegrityError)
  | [] => .ok (acc, log)
  | item :: rest =>
    match item.id with
    | none =>
      if strict then .error .missingParameterValueId
      else checkParameterValuesForUpdateFrom strict defs objs rels vls dict objVals relVals
        acc (log ++ [.missingParameterValueId]) rest
    | some id =>
      match dict.find? (fun p => p.1 = id) with
      | none =>
        if strict then .error .parameterValueNotFound
        else checkParameterValuesForUpdateFrom strict defs objs rels vls dict objVals relVals
          acc (log ++ [.parameterValueNotFound]) rest
      | some cur =>
        let dict1 := dict.eraseP (fun p => p.1 = id)
        let objVals1 :=
          match cur.2.object_id with
          | some o => objVals.erase (o, cur.2.parameter_definition_id)
          | none => objVals
        let relVals1 :=
          match cur.2.object_id with
          | some _ => relVals
          | none =>
            match cur.2.relationship_id with
            | some r => relVals.erase (r, cur.2.parameter_definition_id)
            | none => relVals
        let item1 := pvSetDefaults item
        match check_immutable_fields
            [("object_id", item1.object_id, cur.2.object_id),
             ("relationship_id", item1.relationship_id, cur.2.relationship_id),
             ("parameter_definition_id", item1.parameter_definition_id,
               cur.2.parameter_definition_id)] with
        | .error e =>
          if strict then .error e
          else checkParameterValuesForUpdateFrom strict defs objs rels vls dict1 objVals1
            relVals1 acc (log ++ [e]) rest
        | .ok _ =>
          let merged := pvMerge cur.2 item1
          match check_parameter_value merged.parameter_definition_id merged.object_id
              merged.relationship_id merged.value objVals1 relVals1 defs objs rels vls with
          | .error e =>
            if strict then .error e
            else checkParameterValuesForUpdateFrom strict defs objs rels vls dict1 objVals1
              relVals1 acc (log ++ [e]) rest
          | .ok _ =>
            match merged.object_id with
            | some o =>
              checkParameterValuesForUpdateFrom strict defs objs rels vls
                (dict1 ++ [(id, merged)])
                (objVals1 ++ [(o, merged.parameter_definition_id)]) relVals1
                (acc ++ [({ item1 with
                  entity_id := some o
                  entity_class_id := ((objs.find? (fun e => e.id = o)).map
                    (fun e => e.class_id)) })]) log rest
            | none =>
              match merged.relationship_id with
              | some r =>
                checkParameterValuesForUpdateFrom strict defs objs rels vls
                  (dict1 ++ [(id, merged)]) objVals1
                  (relVals1 ++ [(r, merged.parameter_definition_id)])
                  (acc ++ [({ item1 with
                    entity_id := some r
                    entity_class_id := ((rels.find? (fun e => e.id = r)).map
                      (fun e => e.class_id)) })]) log rest
              | none =>
                checkParameterValuesForUpdateFrom strict defs objs rels vls
                  (dict1 ++ [(id, merged)]) objVals1 relVals1 (acc ++ [item1]) log rest

def check_parameter_values_for_update (rows : List ParameterValueRow)
    (defs : List ParameterDefinitionRef) (objs rels : List EntityRef)
    (vls : List (Nat × List String)) (items : List ParameterValueUpd) (strict : Bool) :
    Except SpineIntegrityError (List ParameterValueUpd × List SpineIntegrityError) :=
  checkParameterValuesForUpdateFrom strict defs objs rels vls
    (rows.map (fun r => (r.id,
      ({ parameter_definition_id := some r.parameter_definition_id
         object_id := r.object_id
         relationship_id := r.relationship_id } : ParameterValueCur))))
    (rows.filterMap (fun r => r.object_id.map
      (fun o => (o, some r.parameter_definition_id))))
    (rows.filterMap (fun r =>
      r.relationship_id.map (fun rel => (rel, some r.parameter_definition_id))))
    [] [] items

theorem find_assoc_of_mem {β : Type} (l : List (Nat × β)) (x : Nat) (v : β)
    (hmem : (x, v) ∈ l) (hnd : (l.map (fun p => p.1)).Nodup) :
    l.find? (fun p => p.1 = x) = some (x, v) := by
  induction l with
  | nil => cases hmem
  | cons p rest ih =>
    simp only [List.map_cons, List.nodup_cons] at hnd
    rcases List.mem_cons.mp hmem with rfl | hmem2
    · simp [List.find?]
    · have hne : ¬(p.1 = x) := by
        intro he
        exact hnd.1 (he ▸ List.mem_map_of_mem (fun q => q.1) hmem2)
      rw [List.find?]
      simp only [decide_eq_false hne]
      exact ih hmem2 hnd.2

/-- C2: updating an object class to carry its own current name is accepted (the
current row is popped from the uniqueness index before the merged row is
re-checked, so there is no self-conflict), while updating it to carry the name of a
different live object class is rejected as a duplicate-name violation. -/
theorem C2_update_self_rename (rows : List ObjectClassRow) (x y : Nat) (nx ny : String)
    (hx : (⟨x, nx⟩ : ObjectClassRow) ∈ rows) (hy : (⟨y, ny⟩ : ObjectClassRow) ∈ rows)
    (hxy : x ≠ y) (hid : (rows.map (fun r => r.id)).Nodup)
    (hnames : (rows.map (fun r => r.name)).Nodup) :
    check_object_classes_for_update rows [{ id := some x, name := some nx }] false =
      .ok ([{ id := some x, name := some nx }], []) ∧
    check_object_classes_for_update rows [{ id := some x, name := some ny }] false =
      .ok ([], [.duplicateObjectClassName ny]) := by
  have hfind : (rows.map (fun r => (r.id, r.name))).find? (fun p => p.1 = x) =
      some (x, nx) := by
    apply find_assoc_of_mem
    · exact List.mem_map_of_mem _ hx
    · simpa [Function.comp] using hid
  have hnxny : nx ≠ ny := by
    intro he
    have := List.inj_on_of_nodup_map hnames hx hy (by simpa using he)
    simp at this
    exact hxy this.1
  constructor
  · have hmem : nx ∉ (rows.map (fun r => r.name)).erase nx := fun hmem =>
      ((List.Nodup.mem_erase_iff hnames).mp hmem).1 rfl
    simp only [check_object_classes_for_update, checkObjectClassesForUpdateFrom, hfind]
    simp [check_object_class, hmem, checkObjectClassesForUpdateFrom]
  · have hnymem : ny ∈ (rows.map (fun r => r.name)).erase nx := by
      rw [List.Nodup.mem_erase_iff hnames]
      exact ⟨fun he => hnxny he.symm, List.mem_map_of_mem _ hy⟩
    simp only [check_object_classes_for_update, checkObjectClassesForUpdateFrom, hfind]
    simp [check_object_class, hnymem, checkObjectClassesForUpdateFrom]

theorem C2_update_self_rename_witness :
    check_object_classes_for_update [⟨1, "tank"⟩, ⟨2, "valve"⟩]
        [{ id := some 1, name := some "tank" }] false =
      .ok ([{ id := some 1, name := some "tank" }], []) ∧
    check_object_classes_for_update [⟨1, "tank"⟩, ⟨2, "valve"⟩]
        [{ id := some 1, name := some "valve" }] false =
      .ok ([], [.duplicateObjectClassName "valve"]) :=
  C2_update_self_rename [⟨1, "tank"⟩, ⟨2, "valve"⟩] 1 2 "tank" "valve"
    (by decide) (by decide) (by decide) (by decide) (by decide)

/-- C3 counterexample: the committed parameter value has alternative 1; the update
sets alternative 2 (different from the committed one) and is accepted with an empty
error log, so changing a parameter value's alternative is not rejected by the
checker — the immutable fields are only the entity reference and the definition. -/
theorem C3_alternative_change_accepted :
    check_parameter_values_for_update [⟨1, 1, some 1, none, 1⟩] [⟨1, some 10, none, none⟩]
        [⟨1, 10⟩] [] [] [{ id := some 1, alternative_id := some (some 2) }] false =
      .ok ([({ id := some 1
               alternative_id := some (some 2)
               entity_id := some 1
               entity_class_id := some 10 } : ParameterValueUpd)], []) := by decide

theorem check_immutable_fields_ok
    (fields : List (String × Option (Option Nat) × Option Nat))
    (h : check_immutable_fields fields = .ok ()) :
    ∀ f ∈ fields, ∀ v, f.2.1 = some v → v = f.2.2 := by
  intro f hf v hv
  rw [check_immutable_fields] at h
  rcases hfind : fields.find? (fun f =>
    match f.2.1 with
    | none => false
    | some v => v != f.2.2) with _ | g
  · have hnp := List.find?_eq_none.mp hfind f hf
    rw [hv] at hnp
    simpa using hnp
  · rw [hfind] at h
    simp at h

def pvImmutableOk (rows : List ParameterValueRow) (item : ParameterValueUpd) : Prop :=
  ∀ c ∈ rows, item.id = some c.id →
    (∀ v, item.object_id = some v → v = c.object_id) ∧
    (∀ v, item.relationship_id = some v → v = c.relationship_id) ∧
    (∀ v, item.parameter_definition_id = some v → v = some c.parameter_definition_id)

def pvDictConsistent (rows : List ParameterValueRow)
    (dict : List (Nat × ParameterValueCur)) : Prop :=
  ∀ p ∈ dict, ∀ c ∈ rows, c.id = p.1 →
    p.2.parameter_definition_id = some c.parameter_definition_id ∧
    p.2.object_id = c.object_id ∧ p.2.relationship_id = c.relationship_id

theorem pvDictConsistent_of_eraseP (rows : List ParameterValueRow)
    (dict : List (Nat × ParameterValueCur)) (q : Nat × ParameterValueCur → Bool)
    (h : pvDictConsistent rows dict) : pvDictConsistent rows (dict.eraseP q) :=
  fun p hp => h p (List.mem_of_mem_eraseP hp)

theorem pvSetDefaults_id (item : ParameterValueUpd) :
    (pvSetDefaults item).id = item.id := by
  simp only [pvSetDefaults]
  split_ifs <;> rfl

theorem pvUpdateFrom_immutable (rows : List ParameterValueRow)
    (defs : List ParameterDefinitionRef) (objs rels : List EntityRef)
    (vls : List (Nat × List String)) (dict : List (Nat × ParameterValueCur))
    (objVals relVals : List (Nat × Option Nat)) (acc : List ParameterValueUpd)
    (log : List SpineIntegrityError) (items : List ParameterValueUpd)
    (accOut : List ParameterValueUpd) (logOut : List SpineIntegrityError)
    (hcons : pvDictConsistent rows dict)
    (hrun : checkParameterValuesForUpdateFrom false defs objs rels vls dict objVals relVals
      acc log items = .ok (accOut, logOut)) :
    ∀ x ∈ accOut, x ∈ acc ∨ pvImmutableOk rows x := by
  induction items generalizing dict objVals relVals acc log with
  | nil =>
    simp only [checkParameterValuesForUpdateFrom, Except.ok.injEq, Prod.mk.injEq] at hrun
    intro x hx
    exact Or.inl (hrun.1 ▸ hx)
  | cons item rest ih =>
    simp only [checkParameterValuesForUpdateFrom] at hrun
    split at hrun
    · split at hrun
      · cases hrun
      · exact ih _ _ _ _ _ hcons hrun
    next id hid =>
      split at hrun
      · split at hrun
        · cases hrun
        · exact ih _ _ _ _ _ hcons hrun
      next cur hfind =>
        have hcons1 : pvDictConsistent rows (dict.eraseP (fun p => p.1 = id)) :=
          pvDictConsistent_of_eraseP rows dict _ hcons
        split at hrun
        next e himm =>
          split at hrun
          · cases hrun
          · exact ih _ _ _ _ _ hcons1 hrun
        next u himm =>
          have hcurid : cur.1 = id := by simpa using List.find?_some hfind
          have hcurmem : cur ∈ dict := List.mem_of_find?_eq_some hfind
          have hfields := check_immutable_fields_ok _ (by cases u; exact himm)
          have hobj : ∀ v, (pvSetDefaults item).object_id = some v →
              v = cur.2.object_id :=
            fun v hv => hfields
              ("object_id", (pvSetDefaults item).object_id, cur.2.object_id) (by simp) v hv
          have hrel : ∀ v, (pvSetDefaults item).relationship_id = some v →
              v = cur.2.relationship_id :=
            fun v hv => hfields
              ("relationship_id", (pvSetDefaults item).relationship_id,
                cur.2.relationship_id) (by simp) v hv
          have hpd : ∀ v, (pvSetDefaults item).parameter_definition_id = some v →
              v = cur.2.parameter_definition_id :=
            fun v hv => hfields
              ("parameter_definition_id", (pvSetDefaults item).parameter_definition_id,
                cur.2.parameter_definition_id) (by simp) v hv
          have hmpd : (pvMerge cur.2 (pvSetDefaults item)).parameter_definition_id =
              cur.2.parameter_definition_id := by
            simp only [pvMerge]
            rcases hc : (pvSetDefaults item).parameter_definition_id with _ | v
            · simp
            · simpa using hpd v hc
          have hmobj : (pvMerge cur.2 (pvSetDefaults item)).object_id =
              cur.2.object_id := by
            simp only [pvMerge]
            rcases hc : (pvSetDefaults item).object_id with _ | v
            · simp
            · simpa using hobj v hc
          have hmrel : (pvMerge cur.2 (pvSetDefaults item)).relationship_id =
              cur.2.relationship_id := by
            simp only [pvMerge]
            rcases hc : (pvSetDefaults item).relationship_id with _ | v
            · simp
            · simpa using hrel v hc
          have hconsNew : pvDictConsistent rows
              (dict.eraseP (fun p => p.1 = id) ++
                [(id, pvMerge cur.2 (pvSetDefaults item))]) := by
            intro p hp c hc hcid2
            rcases List.mem_append.mp hp with hp1 | hp2
            · exact hcons1 p hp1 c hc hcid2
            · have hpe : p = (id, pvMerge cur.2 (pvSetDefaults item)) := by simpa using hp2
              subst hpe
              have hcc := hcons cur hcurmem c hc (by simpa [hcurid] using hcid2)
              exact ⟨by rw [hmpd, hcc.1], by rw [hmobj, hcc.2.1], by rw [hmrel, hcc.2.2]⟩
          have hPbase : ∀ (y : ParameterValueUpd), y.id = item.id →
              y.object_id = (pvSetDefaults item).object_id →
              y.relationship_id = (pvSetDefaults item).relationship_id →
              y.parameter_definition_id = (pvSetDefaults item).parameter_definition_id →
              pvImmutableOk rows y := by
            intro y hyid hyobj hyrel hypd c hc hcid2
            have hcideq : c.id = id := by
              rw [hyid, hid] at hcid2
              exact (Option.some.inj hcid2).symm
            have hcc := hcons cur hcurmem c hc (by rw [hcurid, hcideq])
            refine ⟨?_, ?_, ?_⟩
            · intro v hv
              rw [hyobj] at hv
              rw [hobj v hv, hcc.2.1]
            · intro v hv
              rw [hyrel] at hv
              rw [hrel v hv, hcc.2.2]
            · intro v hv
              rw [hypd] at hv
              rw [hpd v hv, hcc.1]
          split at hrun
          next e hchk =>
            split at hrun
            · cases hrun
            · exact ih _ _ _ _ _ hcons1 hrun
          next u2 hchk =>
            split at hrun
            next o ho =>
              have hres := ih _ _ _ _ _ hconsNew hrun
              intro x hx
              rcases hres x hx with hx2 | hx2
              · rcases List.mem_append.mp hx2 with h3 | h3
                · exact Or.inl h3
                · have hxe := List.mem_singleton.mp h3
                  subst hxe
                  exact Or.inr (hPbase _ (pvSetDefaults_id item) rfl rfl rfl)
              · exact Or.inr hx2
            next hno =>
              split at hrun
              next r hr =>
                have hres := ih _ _ _ _ _ hconsNew hrun
                intro x hx
                rcases hres x hx with hx2 | hx2
                · rcases List.mem_append.mp hx2 with h3 | h3
                  · exact Or.inl h3
                  · have hxe := List.mem_singleton.mp h3
                    subst hxe
                    exact Or.inr (hPbase _ (pvSetDefaults_id item) rfl rfl rfl)
                · exact Or.inr hx2
              next hnr =>
                have hres := ih _ _ _ _ _ hconsNew hrun
                intro x hx
                rcases hres x hx with hx2 | hx2
                · rcases List.mem_append.mp hx2 with h3 | h3
                  · exact Or.inl h3
                  · have hxe := List.mem_singleton.mp h3
                    subst hxe
                    exact Or.inr (hPbase _ (pvSetDefaults_id item) rfl rfl rfl)
                · exact Or.inr hx2

def objImmutableOk (rows : List ObjectRow) (item : ObjectUpd) : Prop :=
  ∀ c ∈ rows, item.id = some c.id → ∀ v, item.class_id = some v → v = some c.class_id

def objDictConsistent (rows : List ObjectRow) (dict : List (Nat × String × Nat)) : Prop :=
  ∀ p ∈ dict, ∀ c ∈ rows, c.id = p.1 → p.2.2 = c.class_id

theorem objUpdateFrom_immutable (rows : List ObjectRow) (classes : List Nat)
    (dict : List (Nat × String × Nat)) (names : List (Nat × String))
    (acc : List ObjectUpd) (log : List SpineIntegrityError) (items : List ObjectUpd)
    (accOut : List ObjectUpd) (logOut : List SpineIntegrityError)
    (hcons : objDictConsistent rows dict)
    (hrun : checkObjectsForUpdateFrom false classes dict names acc log items =
      .ok (accOut, logOut)) :
    ∀ x ∈ accOut, x ∈ acc ∨ objImmutableOk rows x := by
  induction items generalizing dict names acc log with
  | nil =>
    simp only [checkObjectsForUpdateFrom, Except.ok.injEq, Prod.mk.injEq] at hrun
    intro x hx
    exact Or.inl (hrun.1 ▸ hx)
  | cons item rest ih =>
    simp only [checkObjectsForUpdateFrom] at hrun
    split at hrun
    · split at hrun
      · cases hrun
      · exact ih _ _ _ _ hcons hrun
    next id hid =>
      split at hrun
      · split at hrun
        · cases hrun
        · exact ih _ _ _ _ hcons hrun
      next cur hfind =>
        have hcons1 : objDictConsistent rows (dict.eraseP (fun p => p.1 = id)) :=
          fun p hp => hcons p (List.mem_of_mem_eraseP hp)
        split at hrun
        next e himm =>
          split at hrun
          · cases hrun
          · exact ih _ _ _ _ hcons1 hrun
        next u himm =>
          have hcurid : cur.1 = id := by simpa using List.find?_some hfind
          have hcurmem : cur ∈ dict := List.mem_of_find?_eq_some hfind
          have hfields := check_immutable_fields_ok _ (by cases u; exact himm)
          have hcls : ∀ v, item.class_id = some v → v = some cur.2.2 :=
            fun v hv => hfields ("class_id", item.class_id, some cur.2.2) (by simp) v hv
          have hP : objImmutableOk rows item := by
            intro c hc hcid2 v hv
            have hcideq : c.id = id := by
              rw [hid] at hcid2
              exact (Option.some.inj hcid2).symm
            have hcc := hcons cur hcurmem c hc (by rw [hcurid, hcideq])
            rw [hcls v hv, hcc]
          have hmc : (item.class_id.getD (some cur.2.2)).getD cur.2.2 = cur.2.2 := by
            rcases hc2 : item.class_id with _ | v
            · simp
            · have := hcls v hc2
              simp [this]
          split at hrun
          next u2 hchk =>
            have hconsNew : objDictConsistent rows
                (dict.eraseP (fun p => p.1 = id) ++
                  [(id, item.name.getD cur.2.1,
                    (item.class_id.getD (some cur.2.2)).getD cur.2.2)]) := by
              intro p hp c hc hcid2
              rcases List.mem_append.mp hp with hp1 | hp2
              · exact hcons1 p hp1 c hc hcid2
              · have hpe : p = (id, item.name.getD cur.2.1,
                    (item.class_id.getD (some cur.2.2)).getD cur.2.2) := by simpa using hp2
                subst hpe
                have hcc := hcons cur hcurmem c hc (by simpa [hcurid] using hcid2)
                simpa [hmc] using hcc
            have hres := ih _ _ _ _ hconsNew hrun
            intro x hx
            rcases hres x hx with hx2 | hx2
            · rcases List.mem_append.mp hx2 with h3 | h3
              · exact Or.inl h3
              · have hxe := List.mem_singleton.mp h3
                subst hxe
                exact Or.inr hP
            · exact Or.inr hx2
          next e hchk =>
            split at hrun
            · cases hrun
            · exact ih _ _ _ _ hcons1 hrun

theorem pvDictConsistent_init (rows : List ParameterValueRow)
    (hnd : (rows.map (fun r => r.id)).Nodup) :
    pvDictConsistent rows (rows.map (fun r => (r.id,
      ({ parameter_definition_id := some r.parameter_definition_id
         object_id := r.object_id
         relationship_id := r.relationship_id } : ParameterValueCur)))) := by
  intro p hp c hc hcid
  obtain ⟨r, hr, rfl⟩ := List.mem_map.mp hp
  have hcr : c = r := List.inj_on_of_nodup_map hnd hc hr (by simpa using hcid)
  subst hcr
  simp

theorem objDictConsistent_init (rows : List ObjectRow)
    (hnd : (rows.map (fun r => r.id)).Nodup) :
    objDictConsistent rows (rows.map (fun r => (r.id, r.name, r.class_id))) := by
  intro p hp c hc hcid
  obtain ⟨r, hr, rfl⟩ := List.mem_map.mp hp
  have hcr : c = r := List.inj_on_of_nodup_map hnd hc hr (by simpa using hcid)
  subst hcr
  rfl

/-- C3 (amended): in every accepted parameter-value update, the entity reference
(object id / relationship id) and the parameter definition id, whenever present in
the update item, equal the current committed values — these fields are immutable,
and the object↔relationship swap is likewise rejected by the immutable-field check;
similarly every accepted object update leaves class id unchanged.  (The claim's
further assertion that the alternative is immutable is refuted by
`C3_alternative_change_accepted`.) -/
theorem C3_identity_fields_immutable
    (rows : List ParameterValueRow) (defs : List ParameterDefinitionRef)
    (objs rels : List EntityRef) (vls : List (Nat × List String))
    (items accOut : List ParameterValueUpd) (logOut : List SpineIntegrityError)
    (x : ParameterValueUpd) (c : ParameterValueRow)
    (orows : List ObjectRow) (classes : List Nat) (oitems : List ObjectUpd)
    (oaccOut : List ObjectUpd) (ologOut : List SpineIntegrityError)
    (ox : ObjectUpd) (oc : ObjectRow) (vo vr vp vcls : Option Nat)
    (hnd : (rows.map (fun r => r.id)).Nodup)
    (hrun : check_parameter_values_for_update rows defs objs rels vls items false =
      .ok (accOut, logOut))
    (hx : x ∈ accOut) (hc : c ∈ rows) (hid : x.id = some c.id)
    (hond : (orows.map (fun r => r.id)).Nodup)
    (horun : check_objects_for_update classes orows oitems false = .ok (oaccOut, ologOut))
    (hox : ox ∈ oaccOut) (hoc : oc ∈ orows) (hoid : ox.id = some oc.id) :
    ((x.object_id = some vo → vo = c.object_id) ∧
     (x.relationship_id = some vr → vr = c.relationship_id) ∧
     (x.parameter_definition_id = some vp → vp = some c.parameter_definition_id)) ∧
    (ox.class_id = some vcls → vcls = some oc.class_id) := by
  constructor
  · rw [check_parameter_values_for_update] at hrun
    have hres := pvUpdateFrom_immutable rows defs objs rels vls _ _ _ [] [] items accOut
      logOut (pvDictConsistent_init rows hnd) hrun
    rcases hres x hx with h | h
    · simp at h
    · obtain ⟨h1, h2, h3⟩ := h c hc hid
      exact ⟨h1 vo, h2 vr, h3 vp⟩
  · rw [check_objects_for_update] at horun
    have hres := objUpdateFrom_immutable orows classes _ _ [] [] oitems oaccOut ologOut
      (objDictConsistent_init orows hond) horun
    rcases hres ox hox with h | h
    · simp at h
    · exact h oc hoc hoid vcls

theorem C3_identity_fields_immutable_witness :
    check_parameter_values_for_update [⟨1, 1, some 1, none, 1⟩] [⟨1, some 10, none, none⟩]
        [⟨1, 10⟩] [] [] [{ id := some 1, object_id := some (some 1) }] false =
      .ok ([({ id := some 1
               object_id := some (some 1)
               relationship_id := some none
               entity_id := some 1
               entity_class_id := some 10 } : ParameterValueUpd)], []) ∧
    (some 1 : Option Nat) = some 1 ∧ (some 5 : Option Nat) = some 5 := by
  refine ⟨by decide, ?_, ?_⟩
  · have h := C3_identity_fields_immutable [⟨1, 1, some 1, none, 1⟩]
      [⟨1, some 10, none, none⟩] [⟨1, 10⟩] [] []
      [{ id := some 1, object_id := some (some 1) }]
      [({ id := some 1
          object_id := some (some 1)
          relationship_id := some none
          entity_id := some 1
          entity_class_id := some 10 } : ParameterValueUpd)] []
      ({ id := some 1
         object_id := some (some 1)
         relationship_id := some none
         entity_id := some 1
         entity_class_id := some 10 } : ParameterValueUpd) ⟨1, 1, some 1, none, 1⟩
      [⟨1, 5, "T1"⟩] [5] [{ id := some 1, class_id := some (some 5) }]
      [{ id := some 1, class_id := some (some 5) }] []
      { id := some 1, class_id := some (some 5) } ⟨1, 5, "T1"⟩
      (some 1) none (some 1) (some 5)
      (by decide) (by decide) (by decide) (by decide) (by decide)
      (by decide) (by decide) (by decide) (by decide) (by decide)
    exact h.1.1 (by decide)
  · have h := C3_identity_fields_immutable [⟨1, 1, some 1, none, 1⟩]
      [⟨1, some 10, none, none⟩] [⟨1, 10⟩] [] []
      [{ id := some 1, object_id := some (some 1) }]
      [({ id := some 1
          object_id := some (some 1)
          relationship_id := some none
          entity_id := some 1
          entity_class_id := some 10 } : ParameterValueUpd)] []
      ({ id := some 1
         object_id := some (some 1)
         relationship_id := some none
         entity_id := some 1
         entity_class_id := some 10 } : ParameterValueUpd) ⟨1, 1, some 1, none, 1⟩
      [⟨1, 5, "T1"⟩] [5] [{ id := some 1, class_id := some (some 5) }]
      [{ id := some 1, class_id := some (some 5) }] []
      { id := some 1, class_id := some (some 5) } ⟨1, 5, "T1"⟩
      (some 1) none (some 1) (some 5)
      (by decide) (by decide) (by decide) (by decide) (by decide)
      (by decide) (by decide) (by decide) (by decide) (by decide)
    exact h.2 (by decide)

theorem ocUpdateFrom_partition (dict : List (Nat × String)) (names : List String)
    (acc : List ObjectClassUpd) (log : List SpineIntegrityError)
    (items : List ObjectClassUpd) :
    ∃ A L, checkObjectClassesForUpdateFrom false dict names acc log items =
        .ok (acc ++ A, log ++ L) ∧ A.length + L.length = items.length ∧ A.Sublist items := by
  induction items generalizing dict names acc log with
  | nil => exact ⟨[], [], by simp [checkObjectClassesForUpdateFrom], by simp, by simp⟩
  | cons item rest ih =>
    rcases hid : item.id with _ | id
    · obtain ⟨A, L, h1, h2, h3⟩ := ih dict names acc (log ++ [.missingObjectClassId])
      refine ⟨A, .missingObjectClassId :: L, ?_, by simp only [List.length_cons]; omega, h3.cons _⟩
      simp only [checkObjectClassesForUpdateFrom, hid]
      rw [if_neg (by simp), h1]
      simp
    rcases hfind : dict.find? (fun p => p.1 = id) with _ | cur
    · obtain ⟨A, L, h1, h2, h3⟩ := ih dict names acc (log ++ [.objectClassNotFound])
      refine ⟨A, .objectClassNotFound :: L, ?_, by simp only [List.length_cons]; omega, h3.cons _⟩
      simp only [checkObjectClassesForUpdateFrom, hid, hfind]
      rw [if_neg (by simp), h1]
      simp
    by_cases hdup : item.name.getD cur.2 ∈ names.erase cur.2
    · obtain ⟨A, L, h1, h2, h3⟩ := ih (dict.eraseP (fun p => p.1 = id)) (names.erase cur.2)
        acc (log ++ [.duplicateObjectClassName (item.name.getD cur.2)])
      refine ⟨A, .duplicateObjectClassName (item.name.getD cur.2) :: L, ?_,
        by simp only [List.length_cons]; omega, h3.cons _⟩
      simp only [checkObjectClassesForUpdateFrom, hid, hfind, check_object_class,
        if_pos hdup]
      rw [if_neg (by simp), h1]
      simp
    · obtain ⟨A, L, h1, h2, h3⟩ := ih
        (dict.eraseP (fun p => p.1 = id) ++ [(id, item.name.getD cur.2)])
        (names.erase cur.2 ++ [item.name.getD cur.2]) (acc ++ [item]) log
      refine ⟨item :: A, L, ?_, by simp only [List.length_cons]; omega, h3.cons₂ _⟩
      simp only [checkObjectClassesForUpdateFrom, hid, hfind, check_object_class,
        if_neg hdup]
      rw [h1]
      simp

theorem objUpdateFrom_partition (classes : List Nat) (dict : List (Nat × String × Nat))
    (names : List (Nat × String)) (acc : List ObjectUpd) (log : List SpineIntegrityError)
    (items : List ObjectUpd) :
    ∃ A L, checkObjectsForUpdateFrom false classes dict names acc log items =
        .ok (acc ++ A, log ++ L) ∧ A.length + L.length = items.length ∧ A.Sublist items := by
  induction items generalizing dict names acc log with
  | nil => exact ⟨[], [], by simp [checkObjectsForUpdateFrom], by simp, by simp⟩
  | cons item rest ih =>
    rcases hid : item.id with _ | id
    · obtain ⟨A, L, h1, h2, h3⟩ := ih dict names acc (log ++ [.missingObjectId])
      refine ⟨A, .missingObjectId :: L, ?_, by simp only [List.length_cons]; omega, h3.cons _⟩
      simp only [checkObjectsForUpdateFrom, hid]
      rw [if_neg (by simp), h1]
      simp
    rcases hfind : dict.find? (fun p => p.1 = id) with _ | cur
    · obtain ⟨A, L, h1, h2, h3⟩ := ih dict names acc (log ++ [.objectNotFound])
      refine ⟨A, .objectNotFound :: L, ?_, by simp only [List.length_cons]; omega, h3.cons _⟩
      simp only [checkObjectsForUpdateFrom, hid, hfind]
      rw [if_neg (by simp), h1]
      simp
    rcases himm : check_immutable_fields [("class_id", item.class_id, some cur.2.2)]
      with e | u
    · obtain ⟨A, L, h1, h2, h3⟩ := ih (dict.eraseP (fun p => p.1 = id))
        (names.erase (cur.2.2, cur.2.1)) acc (log ++ [e])
      refine ⟨A, e :: L, ?_, by simp only [List.length_cons]; omega, h3.cons _⟩
      simp only [checkObjectsForUpdateFrom, hid, hfind, himm]
      rw [if_neg (by simp), h1]
      simp
    rcases hchk : check_object (item.class_id.getD (some cur.2.2)) (item.name.getD cur.2.1)
        (names.erase (cur.2.2, cur.2.1)) classes with e | u2
    · obtain ⟨A, L, h1, h2, h3⟩ := ih (dict.eraseP (fun p => p.1 = id))
        (names.erase (cur.2.2, cur.2.1)) acc (log ++ [e])
      refine ⟨A, e :: L, ?_, by simp only [List.length_cons]; omega, h3.cons _⟩
      simp only [checkObjectsForUpdateFrom, hid, hfind, himm, hchk]
      rw [if_neg (by simp), h1]
      simp
    · obtain ⟨A, L, h1, h2, h3⟩ := ih
        (dict.eraseP (fun p => p.1 = id) ++
          [(id, item.name.getD cur.2.1, (item.class_id.getD (some cur.2.2)).getD cur.2.2)])
        (names.erase (cur.2.2, cur.2.1) ++
          [((item.class_id.getD (some cur.2.2)).getD cur.2.2, item.name.getD cur.2.1)])
        (acc ++ [item]) log
      refine ⟨item :: A, L, ?_, by simp only [List.length_cons]; omega, h3.cons₂ _⟩
      simp only [checkObjectsForUpdateFrom, hid, hfind, himm, hchk]
      rw [h1]
      simp

theorem pvUpdateFrom_no_error (defs : List ParameterDefinitionRef) (objs rels : List EntityRef)
    (vls : List (Nat × List String)) (dict : List (Nat × ParameterValueCur))
    (objVals relVals : List (Nat × Option Nat)) (acc : List ParameterValueUpd)
    (log : List SpineIntegrityError) (items : List ParameterValueUpd)
    (e : SpineIntegrityError) :
    checkParameterValuesForUpdateFrom false defs objs rels vls dict objVals relVals
      acc log items ≠ .error e := by
  induction items generalizing dict objVals relVals acc log with
  | nil => intro h; simp [checkParameterValuesForUpdateFrom] at h
  | cons item rest ih =>
    intro h
    simp only [checkParameterValuesForUpdateFrom] at h
    split at h
    · split at h
      next hcond => simp at hcond
      next => exact ih _ _ _ _ _ h
    · split at h
      · split at h
        next hcond => simp at hcond
        next => exact ih _ _ _ _ _ h
      · split at h
        · split at h
          next hcond => simp at hcond
          next => exact ih _ _ _ _ _ h
        · split at h
          · split at h
            next hcond => simp at hcond
            next => exact ih _ _ _ _ _ h
          · split at h
            · exact ih _ _ _ _ _ h
            · split at h
              · exact ih _ _ _ _ _ h
              · exact ih _ _ _ _ _ h

theorem pvUpdateFrom_partition (defs : List ParameterDefinitionRef)
    (objs rels : List EntityRef) (vls : List (Nat × List String))
    (dict : List (Nat × ParameterValueCur)) (objVals relVals : List (Nat × Option Nat))
    (acc : List ParameterValueUpd) (log : List SpineIntegrityError)
    (items accOut : List ParameterValueUpd) (logOut : List SpineIntegrityError)
    (hrun : checkParameterValuesForUpdateFrom false defs objs rels vls dict objVals relVals
      acc log items = .ok (accOut, logOut)) :
    ∃ A L, accOut = acc ++ A ∧ logOut = log ++ L ∧ A.length + L.length = items.length ∧
      (A.map (fun x => x.id)).Sublist (items.map (fun x => x.id)) := by
  induction items generalizing dict objVals relVals acc log with
  | nil =>
    simp only [checkParameterValuesForUpdateFrom, Except.ok.injEq, Prod.mk.injEq] at hrun
    exact ⟨[], [], by simp [hrun.1.symm], by simp [hrun.2.symm], by simp, by simp⟩
  | cons item rest ih =>
    simp only [checkParameterValuesForUpdateFrom] at hrun
    split at hrun
    next hid =>
      split at hrun
      next hcond => simp at hcond
      next =>
        obtain ⟨A, L, h1, h2, h3, h4⟩ := ih _ _ _ _ _ hrun
        exact ⟨A, .missingParameterValueId :: L, h1, by simp [h2],
          by simp only [List.length_cons]; omega, h4.cons _⟩
    next id hid =>
      split at hrun
      next hfind =>
        split at hrun
        next hcond => simp at hcond
        next =>
          obtain ⟨A, L, h1, h2, h3, h4⟩ := ih _ _ _ _ _ hrun
          exact ⟨A, .parameterValueNotFound :: L, h1, by simp [h2],
            by simp only [List.length_cons]; omega, h4.cons _⟩
      next cur hfind =>
        split at hrun
        next e himm =>
          split at hrun
          next hcond => simp at hcond
          next =>
            obtain ⟨A, L, h1, h2, h3, h4⟩ := ih _ _ _ _ _ hrun
            exact ⟨A, e :: L, h1, by simp [h2],
              by simp only [List.length_cons]; omega, h4.cons _⟩
        next u himm =>
          split at hrun
          next e hchk =>
            split at hrun
            next hcond => simp at hcond
            next =>
              obtain ⟨A, L, h1, h2, h3, h4⟩ := ih _ _ _ _ _ hrun
              exact ⟨A, e :: L, h1, by simp [h2],
                by simp only [List.length_cons]; omega, h4.cons _⟩
          next u2 hchk =>
            split at hrun
            next o ho =>
              obtain ⟨A, L, h1, h2, h3, h4⟩ := ih _ _ _ _ _ hrun
              refine ⟨_ :: A, L, by simpa using h1, h2,
                by simp only [List.length_cons]; omega, ?_⟩
              simp only [List.map_cons]
              have hidmap : ({ pvSetDefaults item with
                  entity_id := some o
                  entity_class_id := ((objs.find? (fun x => x.id = o)).map
                    (fun x => x.class_id)) } : ParameterValueUpd).id = item.id := by
                simpa using pvSetDefaults_id item
              rw [hidmap]
              exact h4.cons₂ _
            next hno =>
              split at hrun
              next r hr =>
                obtain ⟨A, L, h1, h2, h3, h4⟩ := ih _ _ _ _ _ hrun
                refine ⟨_ :: A, L, by simpa using h1, h2,
                  by simp only [List.length_cons]; omega, ?_⟩
                simp only [List.map_cons]
                have hidmap : ({ pvSetDefaults item with
                    entity_id := some r
                    entity_class_id := ((rels.find? (fun x => x.id = r)).map
                      (fun x => x.class_id)) } : ParameterValueUpd).id = item.id := by
                  simpa using pvSetDefaults_id item
                rw [hidmap]
                exact h4.cons₂ _
              next hnr =>
                obtain ⟨A, L, h1, h2, h3, h4⟩ := ih _ _ _ _ _ hrun
                refine ⟨_ :: A, L, by simpa using h1, h2,
                  by simp only [List.length_cons]; omega, ?_⟩
                simp only [List.map_cons]
                rw [pvSetDefaults_id item]
                exact h4.cons₂ _

/-- C10: every embedded non-strict checker call partitions its input exactly — each
input item either appears in the returned accepted list or contributes exactly one
entry to the returned error log, so the lengths of the accepted list and the error
log sum to the number of input items, and the accepted list preserves the relative
order of the input batch (it is a sublist of the batch). -/
theorem C10_nonstrict_partition (ocType : Nat) (existing : List String)
    (items : List ObjectClassIn) (rows : List ObjectClassRow) (uitems : List ObjectClassUpd)
    (classes : List Nat) (orows : List ObjectRow) (oitems : List ObjectUpd)
    (pvrows : List ParameterValueRow) (defs : List ParameterDefinitionRef)
    (objs rels : List EntityRef) (vls : List (Nat × List String))
    (pitems : List ParameterValueUpd) :
    (∃ acc log, check_object_classes_for_insert ocType existing items false = .ok (acc, log) ∧
      acc.length + log.length = items.length ∧
      (acc.map (fun x => x.name)).Sublist (items.map (fun x => x.name))) ∧
    (∃ acc log, check_object_classes_for_update rows uitems false = .ok (acc, log) ∧
      acc.length + log.length = uitems.length ∧ acc.Sublist uitems) ∧
    (∃ acc log, check_objects_for_update classes orows oitems false = .ok (acc, log) ∧
      acc.length + log.length = oitems.length ∧ acc.Sublist oitems) ∧
    (∃ acc log, check_parameter_values_for_update pvrows defs objs rels vls pitems false =
        .ok (acc, log) ∧
      acc.length + log.length = pitems.length ∧
      (acc.map (fun x => x.id)).Sublist (pitems.map (fun x => x.id))) := by
  refine ⟨?_, ?_, ?_, ?_⟩
  · refine ⟨(insertRun ocType existing items).1, (insertRun ocType existing items).2,
      ?_, ?_, ?_⟩
    · simpa [check_object_classes_for_insert] using
        checkFrom_eq_insertRun ocType existing [] [] items
    · exact (insertRun_partition ocType existing items).1
    · exact (insertRun_partition ocType existing items).2
  · obtain ⟨A, L, h1, h2, h3⟩ := ocUpdateFrom_partition (rows.map (fun r => (r.id, r.name)))
      (rows.map (fun r => r.name)) [] [] uitems
    exact ⟨A, L, by simpa [check_object_classes_for_update] using h1, h2, h3⟩
  · obtain ⟨A, L, h1, h2, h3⟩ := objUpdateFrom_partition classes
      (orows.map (fun r => (r.id, r.name, r.class_id)))
      (orows.map (fun r => (r.class_id, r.name))) [] [] oitems
    exact ⟨A, L, by simpa [check_objects_for_update] using h1, h2, h3⟩
  · rcases hrun : check_parameter_values_for_update pvrows defs objs rels vls pitems false
      with e | out
    · exact absurd (by simpa [check_parameter_values_for_update] using hrun)
        (pvUpdateFrom_no_error _ _ _ _ _ _ _ _ _ pitems e)
    · obtain ⟨A, L, h1, h2, h3, h4⟩ := pvUpdateFrom_partition _ _ _ _ _ _ _ [] [] pitems
        out.1 out.2 (by simpa [check_parameter_values_for_update] using hrun)
      refine ⟨out.1, out.2, by simp [hrun], ?_, ?_⟩
      · simp only [List.nil_append] at h1 h2
        rw [h1, h2]
        exact h3
      · simp only [List.nil_append] at h1
        rw [h1]
        exact h4

def next_id (existing : List Nat) (next_id_candidate : Option Nat) : Nat :=
  let max_id := existing.foldl Nat.max 0
  let nxt := max_id + 1
  match next_id_candidate with
  | none => nxt
  | some c => Nat.max c nxt

def items_and_ids {α : Type} (existing : List Nat) (cursor : Option Nat) (items : List α) :
    List (Nat × α) × Finset Nat × Option Nat :=
  match items with
  | [] => ([], ∅, cursor)
  | _ =>
    let nxt := next_id existing cursor
    let ids := List.range' nxt items.length
    (ids.zip items, ids.toFinset, some (nxt + items.length))

structure Store where
  object_class_rows : List ObjectClassRow := []
  next_id_cursor : Option Nat := none
deriving DecidableEq, Repr

def add_object_classes (ocType : Nat) (store : Store) (items : List ObjectClassIn)
    (strict : Bool) :
    Except SpineIntegrityError (Finset Nat × List SpineIntegrityError) × Store :=
  match check_object_classes_for_insert ocType
      (store.object_class_rows.map (fun r => r.name)) items strict with
  | .error e => (.error e, store)
  | .ok (checked, log) =>
    let r := items_and_ids (store.object_class_rows.map (fun r => r.id))
      store.next_id_cursor checked
    (.ok (r.2.1, log),
      { object_class_rows := store.object_class_rows ++
          r.1.map (fun p => ⟨p.1, p.2.name⟩)
        next_id_cursor := r.2.2 })

theorem foldl_max_le_init (l : List Nat) (a : Nat) : a ≤ l.foldl Nat.max a := by
  induction l generalizing a with
  | nil => simp
  | cons y rest ih => exact le_trans (Nat.le_max_left a y) (ih _)

theorem mem_le_foldl_max (l : List Nat) (a x : Nat) (hx : x ∈ l) : x ≤ l.foldl Nat.max a := by
  induction l generalizing a with
  | nil => cases hx
  | cons y rest ih =>
    rcases List.mem_cons.mp hx with rfl | h
    · exact le_trans (Nat.le_max_right a x) (foldl_max_le_init rest _)
    · exact ih _ h

/-- C7: for every kind (embedded generically over the kind's table of existing ids
and the kind's cursor field) and every non-empty batch of n items, the allocator
assigns the contiguous range of n ids starting at the maximum of the cursor's
stored value and one plus the largest existing id (falling back to max plus one
when the cursor field is missing), so no allocated id collides with an existing
id, and the cursor is advanced to the last assigned id plus one. -/
theorem C7_id_allocation {α : Type} (existing : List Nat) (cursor : Option Nat)
    (items : List α) (h : items ≠ []) :
    (items_and_ids existing cursor items).2.1 =
      (List.range' (next_id existing cursor) items.length).toFinset ∧
    next_id existing cursor = Nat.max (cursor.getD 0) (existing.foldl Nat.max 0 + 1) ∧
    (∀ i ∈ (items_and_ids existing cursor items).2.1, i ∉ existing) ∧
    (items_and_ids existing cursor items).2.2 =
      some (next_id existing cursor + items.length) := by
  rcases items with _ | ⟨y, ys⟩
  · exact absurd rfl h
  refine ⟨rfl, ?_, ?_, rfl⟩
  · rcases cursor with _ | c
    · simp [next_id]
    · simp [next_id]
  · intro i hi hmem
    have hge : next_id existing cursor ≤ i := by
      simp only [items_and_ids, List.mem_toFinset] at hi
      exact (List.mem_range'_1.mp hi).1
    have hle : i ≤ existing.foldl Nat.max 0 := mem_le_foldl_max existing 0 i hmem
    have hgt : existing.foldl Nat.max 0 + 1 ≤ next_id existing cursor := by
      rcases cursor with _ | c
      · simp [next_id]
      · simp [next_id]
    omega

theorem C7_id_allocation_witness :
    (items_and_ids [3, 7, 2] (some 5) ["a", "b"]).2.1 =
      (List.range' (next_id [3, 7, 2] (some 5)) 2).toFinset ∧
    next_id [3, 7, 2] (some 5) = Nat.max ((some 5).getD 0) ([3, 7, 2].foldl Nat.max 0 + 1) ∧
    (∀ i ∈ (items_and_ids [3, 7, 2] (some 5) ["a", "b"]).2.1, i ∉ [3, 7, 2]) ∧
    (items_and_ids [3, 7, 2] (some 5) ["a", "b"]).2.2 =
      some (next_id [3, 7, 2] (some 5) + 2) :=
  C7_id_allocation [3, 7, 2] (some 5) ["a", "b"] (by decide)

/-- C8: in strict mode the first violating item raises, aborting the whole batch
before any item is applied to the store (the store is returned unchanged); in
non-strict mode the call always returns both the accepted ids and the error log,
and a violating item never prevents later items from being checked and accepted:
removing it leaves the accepted list unchanged and shrinks the log by exactly one. -/
theorem C8_strict_abort_nonstrict_partial (ocType : Nat) (store : Store)
    (items : List ObjectClassIn) (e : SpineIntegrityError)
    (rest : List SpineIntegrityError) (pre post : List ObjectClassIn)
    (x : ObjectClassIn) :
    ((insertRun ocType (store.object_class_rows.map (fun r => r.name)) items).2 =
        e :: rest →
      add_object_classes ocType store items true = (.error e, store)) ∧
    ((add_object_classes ocType store items false).1 =
      .ok ((items_and_ids (store.object_class_rows.map (fun r => r.id))
          store.next_id_cursor
          (insertRun ocType (store.object_class_rows.map (fun r => r.name)) items).1).2.1,
        (insertRun ocType (store.object_class_rows.map (fun r => r.name)) items).2)) ∧
    (items = pre ++ x :: post →
      x.name ∈ insertNamesAfter (store.object_class_rows.map (fun r => r.name)) pre →
      (insertRun ocType (store.object_class_rows.map (fun r => r.name)) items).1 =
        (insertRun ocType (store.object_class_rows.map (fun r => r.name)) (pre ++ post)).1 ∧
      (insertRun ocType (store.object_class_rows.map (fun r => r.name)) items).2.length =
        (insertRun ocType (store.object_class_rows.map (fun r => r.name))
          (pre ++ post)).2.length + 1) := by
  refine ⟨?_, ?_, ?_⟩
  · intro hlog
    rw [add_object_classes, check_object_classes_for_insert, checkFrom_strict_eq, hlog]
  · rw [add_object_classes, check_object_classes_for_insert, checkFrom_eq_insertRun]
    simp
  · intro hitems hx
    subst hitems
    have hd1 := insertRun_append ocType (store.object_class_rows.map (fun r => r.name))
      pre (x :: post)
    have hd2 := insertRun_append ocType (store.object_class_rows.map (fun r => r.name))
      pre post
    have hstep : insertRun ocType
        (insertNamesAfter (store.object_class_rows.map (fun r => r.name)) pre)
        (x :: post) =
        ((insertRun ocType
            (insertNamesAfter (store.object_class_rows.map (fun r => r.name)) pre) post).1,
          SpineIntegrityError.duplicateObjectClassName x.name ::
            (insertRun ocType
              (insertNamesAfter (store.object_class_rows.map (fun r => r.name)) pre)
              post).2) := by
      simp [insertRun, check_object_class, hx]
    rw [hd1, hd2, hstep]
    simp
    omega

theorem C8_strict_abort_nonstrict_partial_witness :
    add_object_classes 7 { object_class_rows := [⟨1, "tank"⟩], next_id_cursor := some 4 }
        [⟨"tank", none⟩, ⟨"valve", none⟩] true =
      (.error (.duplicateObjectClassName "tank"),
        { object_class_rows := [⟨1, "tank"⟩], next_id_cursor := some 4 }) ∧
    (insertRun 7 ["tank"] [⟨"tank", none⟩, ⟨"valve", none⟩]).1 =
      (insertRun 7 ["tank"] [⟨"valve", none⟩]).1 ∧
    (insertRun 7 ["tank"] [⟨"tank", none⟩, ⟨"valve", none⟩]).2.length =
      (insertRun 7 ["tank"] [⟨"valve", none⟩]).2.length + 1 := by
  have h := C8_strict_abort_nonstrict_partial 7
    { object_class_rows := [⟨1, "tank"⟩], next_id_cursor := some 4 }
    [⟨"tank", none⟩, ⟨"valve", none⟩] (.duplicateObjectClassName "tank") []
    [] [⟨"valve", none⟩] ⟨"tank", none⟩
  refine ⟨h.1 (by decide), ?_⟩
  have h3 := h.2.2 (by decide) (by decide)
  exact h3

structure NextIdRow where
  user : String
  date : Nat
  entity_class_id : Option Nat := none
deriving DecidableEq, Repr

structure Session where
  committed : Option NextIdRow := none
deriving DecidableEq, Repr

inductive SpineDBAPIError where
  | unableToGetNextId
deriving DecidableEq, Repr

def next_id_row (s : Session) (username : String) (now : Nat) (flush : Nat → Bool) :
    Except SpineDBAPIError NextIdRow × Session :=
  let pending : NextIdRow :=
    match s.committed with
    | some row => { row with user := username, date := now }
    | none => { user := username, date := now }
  if flush 0 then (.ok pending, { committed := some pending })
  else (.error .unableToGetNextId, s)

/-- C9: when the synchronous flush that claims the id-allocation cursor fails, the
allocator treats it as contention: the pending session changes are rolled back (the
committed cursor record is returned unchanged), a single error is raised to the
caller, and the claim is never retried internally — the result depends only on the
outcome of the first flush attempt. -/
theorem C9_flush_failure_contention (s : Session) (username : String) (now : Nat)
    (flush flush' : Nat → Bool) :
    (flush 0 = false →
      (next_id_row s username now flush).1 = .error .unableToGetNextId ∧
      (next_id_row s username now flush).2 = s) ∧
    (flush 0 = flush' 0 →
      next_id_row s username now flush = next_id_row s username now flush') := by
  constructor
  · intro h
    simp [next_id_row, h]
  · intro h
    rw [next_id_row, next_id_row, h]

theorem C9_flush_failure_contention_witness :
    (next_id_row { committed := some ⟨"alice", 3, some 11⟩ } "bob" 9 (fun _ => false)).1 =
      .error .unableToGetNextId ∧
    (next_id_row { committed := some ⟨"alice", 3, some 11⟩ } "bob" 9 (fun _ => false)).2 =
      { committed := some ⟨"alice", 3, some 11⟩ } := by
  have h := C9_flush_failure_contention { committed := some ⟨"alice", 3, some 11⟩ }
    "bob" 9 (fun _ => false) (fun _ => false)
  exact h.1 rfl

inductive TableName where
  | entity_class
  | object_class
  | relationship_class
  | relationship_entity_class
  | entity
  | object
  | relationship
  | relationship_entity
  | entity_group
  | parameter_definition
  | parameter_value
  | parameter_value_list
  | list_value
  | alternative
  | scenario
  | scenario_alternative
  | feature
  | tool
  | tool_feature
  | tool_feature_method
  | metadata
  | entity_metadata
  | parameter_value_metadata
deriving DecidableEq, Repr, Fintype

abbrev TableIds := TableName → Finset Nat

def merge (left right : TableIds) : TableIds := fun t => left t ∪ right t

def tablesIds (ts : List TableName) (ids : Finset Nat) : TableIds :=
  fun t => if t ∈ ts then ids else ∅

def selIds {α : Type} (rows : List α) (f : α → Nat) (p : α → Bool) : Finset Nat :=
  ((rows.filter p).map f).toFinset

structure ObjectCacheRow where
  id : Nat
  class_id : Nat
deriving DecidableEq, Repr

structure RelationshipClassCacheRow where
  id : Nat
  object_class_id_list : List Nat
deriving DecidableEq, Repr

structure RelationshipCacheRow where
  id : Nat
  class_id : Nat
  object_id_list : List Nat
deriving DecidableEq, Repr

structure ParameterDefinitionCacheRow where
  id : Nat
  entity_class_id : Nat
deriving DecidableEq, Repr

structure ParameterValueCacheRow where
  id : Nat
  entity_id : Nat
  parameter_id : Nat
  alternative_id : Nat
deriving DecidableEq, Repr

structure EntityGroupCacheRow where
  id : Nat
  group_id : Nat
  member_id : Nat
deriving DecidableEq, Repr

structure EntityMetadataCacheRow where
  id : Nat
  entity_id : Nat
  metadata_id : Nat
deriving DecidableEq, Repr

structure ParameterValueMetadataCacheRow where
  id : Nat
  parameter_value_id : Nat
  metadata_id : Nat
deriving DecidableEq, Repr

structure ScenarioAlternativeCacheRow where
  id : Nat
  scenario_id : Nat
  alternative_id : Nat
deriving DecidableEq, Repr

structure FeatureCacheRow where
  id : Nat
  parameter_definition_id : Nat
  parameter_value_list_id : Nat
deriving DecidableEq, Repr

structure ToolFeatureCacheRow where
  id : Nat
  tool_id : Nat
  feature_id : Nat
deriving DecidableEq, Repr

structure ToolFeatureMethodCacheRow where
  id : Nat
  tool_feature_id : Nat
deriving DecidableEq, Repr

structure Cache where
  object : List ObjectCacheRow := []
  relationship_class : List RelationshipClassCacheRow := []
  relationship : List RelationshipCacheRow := []
  parameter_definition : List ParameterDefinitionCacheRow := []
  parameter_value : List ParameterValueCacheRow := []
  entity_group : List EntityGroupCacheRow := []
  entity_metadata : List EntityMetadataCacheRow := []
  parameter_value_metadata : List ParameterValueMetadataCacheRow := []
  scenario_alternative : List ScenarioAlternativeCacheRow := []
  feature : List FeatureCacheRow := []
  tool_feature : List ToolFeatureCacheRow := []
  tool_feature_method : List ToolFeatureMethodCacheRow := []
deriving DecidableEq, Repr

def scenario_alternatives_cascading_ids (ids : Finset Nat) (_cache : Cache) : TableIds :=
  tablesIds [.scenario_alternative] ids

def tool_feature_method_cascading_ids (ids : Finset Nat) (_cache : Cache) : TableIds :=
  tablesIds [.tool_feature_method] ids

def tool_feature_cascading_ids (ids : Finset Nat) (cache : Cache) : TableIds :=
  merge (tablesIds [.tool_feature] ids)
    (tool_feature_method_cascading_ids
      (selIds cache.tool_feature_method (fun x => x.id)
        (fun x => decide (x.tool_feature_id ∈ ids))) cache)

def feature_cascading_ids (ids : Finset Nat) (cache : Cache) : TableIds :=
  merge (tablesIds [.feature] ids)
    (tool_feature_cascading_ids
      (selIds cache.tool_feature (fun x => x.id) (fun x => decide (x.feature_id ∈ ids)))
      cache)

def tool_cascading_ids (ids : Finset Nat) (cache : Cache) : TableIds :=
  merge (tablesIds [.tool] ids)
    (tool_feature_cascading_ids
      (selIds cache.tool_feature (fun x => x.id) (fun x => decide (x.tool_id ∈ ids)))
      cache)

def entity_group_cascading_ids (ids : Finset Nat) (_cache : Cache) : TableIds :=
  tablesIds [.entity_group] ids

def list_value_cascading_ids (ids : Finset Nat) (_cache : Cache) : TableIds :=
  tablesIds [.list_value] ids

/-- Modelled from the spec: `_metadata_usage_counts` is defined on the mapping
class outside the provided sources.  Per the spec's metadata rule, a metadata
record is reference-counted by its joins: its usage count is the number of
entity-metadata plus parameter-value-metadata join rows that reference it. -/
def metadata_usage_counts (cache : Cache) (m : Nat) : Nat :=
  cache.entity_metadata.countP (fun x => x.metadata_id = m) +
    cache.parameter_value_metadata.countP (fun x => x.metadata_id = m)

def referenced_metadata_ids (cache : Cache) : Finset Nat :=
  (cache.entity_metadata.map (fun x => x.metadata_id)).toFinset ∪
    (cache.parameter_value_metadata.map (fun x => x.metadata_id)).toFinset

inductive MetadataTable where
  | entityMetadata
  | parameterValueMetadata
deriving DecidableEq, Repr

def metadata_removed_counts (cache : Cache) (t : MetadataTable) (ids : Finset Nat)
    (m : Nat) : Nat :=
  match t with
  | .entityMetadata =>
    cache.entity_metadata.countP
      (fun x => decide (x.id ∈ ids) && decide (x.metadata_id = m))
  | .parameterValueMetadata =>
    cache.parameter_value_metadata.countP
      (fun x => decide (x.id ∈ ids) && decide (x.metadata_id = m))

def non_referenced_metadata_ids (ids : Finset Nat) (t : MetadataTable) (cache : Cache) :
    TableIds :=
  fun tn =>
    match tn with
    | .metadata =>
      (referenced_metadata_ids cache).filter
        (fun m => metadata_usage_counts cache m - metadata_removed_counts cache t ids m = 0)
    | _ => ∅

def entity_metadata_cascading_ids (ids : Finset Nat) (cache : Cache) : TableIds :=
  merge (tablesIds [.entity_metadata] ids)
    (non_referenced_metadata_ids ids .entityMetadata cache)

def parameter_value_metadata_cascading_ids (ids : Finset Nat) (cache : Cache) : TableIds :=
  merge (tablesIds [.parameter_value_metadata] ids)
    (non_referenced_metadata_ids ids .parameterValueMetadata cache)

def parameter_value_cascading_ids (ids : Finset Nat) (cache : Cache) : TableIds :=
  merge (tablesIds [.parameter_value] ids)
    (parameter_value_metadata_cascading_ids
      (selIds cache.parameter_value_metadata (fun x => x.id)
        (fun x => decide (x.parameter_value_id ∈ ids))) cache)

def parameter_value_list_cascading_ids (ids : Finset Nat) (cache : Cache) : TableIds :=
  merge (tablesIds [.parameter_value_list] ids)
    (feature_cascading_ids
      (selIds cache.feature (fun x => x.id)
        (fun x => decide (x.parameter_value_list_id ∈ ids))) cache)

def parameter_definition_cascading_ids (ids : Finset Nat) (cache : Cache) : TableIds :=
  merge
    (merge (tablesIds [.parameter_definition] ids)
      (parameter_value_cascading_ids
        (selIds cache.parameter_value (fun x => x.id)
          (fun x => decide (x.parameter_id ∈ ids))) cache))
    (feature_cascading_ids
      (selIds cache.feature (fun x => x.id)
        (fun x => decide (x.parameter_definition_id ∈ ids))) cache)

def relationship_cascading_ids (ids : Finset Nat) (cache : Cache) : TableIds :=
  merge
    (merge
      (merge (tablesIds [.relationship, .entity, .relationship_entity] ids)
        (parameter_value_cascading_ids
          (selIds cache.parameter_value (fun x => x.id)
            (fun x => decide (x.entity_id ∈ ids))) cache))
      (entity_group_cascading_ids
        (selIds cache.entity_group (fun x => x.id)
          (fun x => decide (x.group_id ∈ ids) || decide (x.member_id ∈ ids))) cache))
    (entity_metadata_cascading_ids
      (selIds cache.entity_metadata (fun x => x.id)
        (fun x => decide (x.entity_id ∈ ids))) cache)

def relationship_class_cascading_ids (ids : Finset Nat) (cache : Cache) : TableIds :=
  merge
    (merge (tablesIds [.relationship_class, .relationship_entity_class, .entity_class] ids)
      (relationship_cascading_ids
        (selIds cache.relationship (fun x => x.id)
          (fun x => decide (x.class_id ∈ ids))) cache))
    (parameter_definition_cascading_ids
      (selIds cache.parameter_definition (fun x => x.id)
        (fun x => decide (x.entity_class_id ∈ ids))) cache)

def object_cascading_ids (ids : Finset Nat) (cache : Cache) : TableIds :=
  merge
    (merge
      (merge
        (merge (tablesIds [.entity, .object] ids)
          (relationship_cascading_ids
            (selIds cache.relationship (fun x => x.id)
              (fun x => x.object_id_list.any (fun c => decide (c ∈ ids)))) cache))
        (parameter_value_cascading_ids
          (selIds cache.parameter_value (fun x => x.id)
            (fun x => decide (x.entity_id ∈ ids))) cache))
      (entity_group_cascading_ids
        (selIds cache.entity_group (fun x => x.id)
          (fun x => decide (x.group_id ∈ ids) || decide (x.member_id ∈ ids))) cache))
    (entity_metadata_cascading_ids
      (selIds cache.entity_metadata (fun x => x.id)
        (fun x => decide (x.entity_id ∈ ids))) cache)

def object_class_cascading_ids (ids : Finset Nat) (cache : Cache) : TableIds :=
  merge
    (merge
      (merge (tablesIds [.entity_class, .object_class] ids)
        (object_cascading_ids
          (selIds cache.object (fun x => x.id) (fun x => decide (x.class_id ∈ ids)))
          cache))
      (relationship_class_cascading_ids
        (selIds cache.relationship_class (fun x => x.id)
          (fun x => x.object_class_id_list.any (fun c => decide (c ∈ ids)))) cache))
    (parameter_definition_cascading_ids
      (selIds cache.parameter_definition (fun x => x.id)
        (fun x => decide (x.entity_class_id ∈ ids))) cache)

def alternative_cascading_ids (ids : Finset Nat) (cache : Cache) : TableIds :=
  merge
    (merge (tablesIds [.alternative] ids)
      (parameter_value_cascading_ids
        (selIds cache.parameter_value (fun x => x.id)
          (fun x => decide (x.alternative_id ∈ ids))) cache))
    (scenario_alternatives_cascading_ids
      (selIds cache.scenario_alternative (fun x => x.id)
        (fun x => decide (x.alternative_id ∈ ids))) cache)

def scenario_cascading_ids (ids : Finset Nat) (cache : Cache) : TableIds :=
  merge (tablesIds [.scenario] ids)
    (scenario_alternatives_cascading_ids
      (selIds cache.scenario_alternative (fun x => x.id)
        (fun x => decide (x.scenario_id ∈ ids))) cache)

def metadata_cascading_ids (ids : Finset Nat) (cache : Cache) : TableIds :=
  merge
    (merge (tablesIds [.metadata] ids)
      (tablesIds [.entity_metadata]
        (selIds cache.entity_metadata (fun x => x.id)
          (fun x => decide (x.metadata_id ∈ ids)))))
    (tablesIds [.parameter_value_metadata]
      (selIds cache.parameter_value_metadata (fun x => x.id)
        (fun x => decide (x.metadata_id ∈ ids))))

structure Roots where
  object_class : Finset Nat := ∅
  object : Finset Nat := ∅
  relationship_class : Finset Nat := ∅
  relationship : Finset Nat := ∅
  entity_group : Finset Nat := ∅
  parameter_definition : Finset Nat := ∅
  parameter_value : Finset Nat := ∅
  parameter_value_list : Finset Nat := ∅
  list_value : Finset Nat := ∅
  alternative : Finset Nat := ∅
  scenario : Finset Nat := ∅
  scenario_alternative : Finset Nat := ∅
  feature : Finset Nat := ∅
  tool : Finset Nat := ∅
  tool_feature : Finset Nat := ∅
  tool_feature_method : Finset Nat := ∅
  metadata : Finset Nat := ∅
  entity_metadata : Finset Nat := ∅
  parameter_value_metadata : Finset Nat := ∅
deriving DecidableEq

def cascading_ids (roots : Roots) (cache : Cache) : TableIds :=
  merge
    (merge
      (merge
        (merge
          (merge
            (merge
              (merge
                (merge
                  (merge
                    (merge
                      (merge
                        (merge
                          (merge
                            (merge
                              (merge
                                (merge
                                  (merge
                                    (merge
                                      (merge (fun _ => ∅)
                                        (object_class_cascading_ids roots.object_class
                                          cache))
                                      (object_cascading_ids roots.object cache))
                                    (relationship_class_cascading_ids
                                      roots.relationship_class cache))
                                  (relationship_cascading_ids roots.relationship cache))
                                (entity_group_cascading_ids roots.entity_group cache))
                              (parameter_definition_cascading_ids
                                roots.parameter_definition cache))
                            (parameter_value_cascading_ids roots.parameter_value cache))
                          (parameter_value_list_cascading_ids roots.parameter_value_list
                            cache))
                        (list_value_cascading_ids roots.list_value cache))
                      (alternative_cascading_ids roots.alternative cache))
                    (scenario_cascading_ids roots.scenario cache))
                  (scenario_alternatives_cascading_ids roots.scenario_alternative cache))
                (feature_cascading_ids roots.feature cache))
              (tool_cascading_ids roots.tool cache))
            (tool_feature_cascading_ids roots.tool_feature cache))
          (tool_feature_method_cascading_ids roots.tool_feature_method cache))
        (metadata_cascading_ids roots.metadata cache))
      (entity_metadata_cascading_ids roots.entity_metadata cache))
    (parameter_value_metadata_cascading_ids roots.parameter_value_metadata cache)

theorem merge_eq_sup (l r : TableIds) : merge l r = l ⊔ r := by
  funext t
  rw [merge]
  exact congrFun (congrFun Finset.sup_eq_union.symm (l t)) (r t)

theorem emptyIds_eq_bot : (fun _ => (∅ : Finset Nat)) = (⊥ : TableIds) := rfl

theorem tablesIds_mono (ts : List TableName) {s t : Finset Nat} (h : s ⊆ t) :
    tablesIds ts s ≤ tablesIds ts t := by
  intro tn
  by_cases hmem : tn ∈ ts <;> simp [tablesIds, hmem, h, Finset.le_iff_subset]

theorem tablesIds_empty (ts : List TableName) : tablesIds ts (∅ : Finset Nat) = ⊥ := by
  funext tn
  by_cases h : tn ∈ ts <;> simp [tablesIds, h]

theorem selIds_mono {α : Type} (rows : List α) (f : α → Nat) (p q : α → Bool)
    (h : ∀ x, p x = true → q x = true) : selIds rows f p ⊆ selIds rows f q := by
  intro i hi
  simp only [selIds, List.mem_toFinset, List.mem_map] at hi ⊢
  obtain ⟨x, hx, rfl⟩ := hi
  exact ⟨x, List.mem_filter.mpr ⟨(List.mem_filter.mp hx).1, h x (List.mem_filter.mp hx).2⟩,
    rfl⟩

theorem mem_selIds {α : Type} (rows : List α) (f : α → Nat) (p : α → Bool) (x : α)
    (hx : x ∈ rows) (hp : p x = true) : f x ∈ selIds rows f p := by
  simp only [selIds, List.mem_toFinset, List.mem_map]
  exact ⟨x, List.mem_filter.mpr ⟨hx, hp⟩, rfl⟩

theorem selIds_false {α : Type} (rows : List α) (f : α → Nat) (p : α → Bool)
    (h : ∀ x, p x = false) : selIds rows f p = ∅ := by
  simp only [selIds]
  rw [List.filter_eq_nil_iff.mpr (fun a _ => by simp [h a])]
  rfl

theorem usage_pos (cache : Cache) (m : Nat) (h : m ∈ referenced_metadata_ids cache) :
    0 < metadata_usage_counts cache m := by
  rw [referenced_metadata_ids] at h
  rw [metadata_usage_counts]
  rcases Finset.mem_union.mp h with h | h
  · simp only [List.mem_toFinset, List.mem_map] at h
    obtain ⟨x, hx, he⟩ := h
    have : 0 < cache.entity_metadata.countP (fun y => y.metadata_id = m) :=
      List.countP_pos_iff.mpr ⟨x, hx, by simp [he]⟩
    omega
  · simp only [List.mem_toFinset, List.mem_map] at h
    obtain ⟨x, hx, he⟩ := h
    have : 0 < cache.parameter_value_metadata.countP (fun y => y.metadata_id = m) :=
      List.countP_pos_iff.mpr ⟨x, hx, by simp [he]⟩
    omega

theorem merge_bot_left (r : TableIds) : merge ⊥ r = r := by
  rw [merge_eq_sup, bot_sup_eq]

theorem merge_bot_right (l : TableIds) : merge l ⊥ = l := by
  rw [merge_eq_sup, sup_bot_eq]

theorem scenario_alternatives_empty (cache : Cache) :
    scenario_alternatives_cascading_ids ∅ cache = ⊥ := by
  rw [scenario_alternatives_cascading_ids, tablesIds_empty]

theorem tool_feature_method_empty (cache : Cache) :
    tool_feature_method_cascading_ids ∅ cache = ⊥ := by
  rw [tool_feature_method_cascading_ids, tablesIds_empty]

theorem tool_feature_empty (cache : Cache) : tool_feature_cascading_ids ∅ cache = ⊥ := by
  rw [tool_feature_cascading_ids, selIds_false _ _ _ (fun x => by simp),
    tool_feature_method_empty, tablesIds_empty, merge_bot_left]

theorem feature_empty (cache : Cache) : feature_cascading_ids ∅ cache = ⊥ := by
  rw [feature_cascading_ids, selIds_false _ _ _ (fun x => by simp), tool_feature_empty,
    tablesIds_empty, merge_bot_left]

theorem tool_empty (cache : Cache) : tool_cascading_ids ∅ cache = ⊥ := by
  rw [tool_cascading_ids, selIds_false _ _ _ (fun x => by simp), tool_feature_empty,
    tablesIds_empty, merge_bot_left]

theorem entity_group_empty (cache : Cache) : entity_group_cascading_ids ∅ cache = ⊥ := by
  rw [entity_group_cascading_ids, tablesIds_empty]

theorem list_value_empty (cache : Cache) : list_value_cascading_ids ∅ cache = ⊥ := by
  rw [list_value_cascading_ids, tablesIds_empty]

theorem metadata_removed_counts_empty (cache : Cache) (t : MetadataTable) (m : Nat) :
    metadata_removed_counts cache t ∅ m = 0 := by
  cases t <;>
    · rw [metadata_removed_counts]
      rw [List.countP_eq_zero]
      intro x _
      simp

theorem non_referenced_empty (t : MetadataTable) (cache : Cache) :
    non_referenced_metadata_ids ∅ t cache = ⊥ := by
  funext tn
  cases tn <;> try rfl
  show (referenced_metadata_ids cache).filter _ = ∅
  rw [Finset.filter_eq_empty_iff]
  intro m hm
  have hpos := usage_pos cache m hm
  rw [metadata_removed_counts_empty]
  omega

theorem entity_metadata_empty (cache : Cache) :
    entity_metadata_cascading_ids ∅ cache = ⊥ := by
  rw [entity_metadata_cascading_ids, non_referenced_empty, tablesIds_empty, merge_bot_left]

theorem parameter_value_metadata_empty (cache : Cache) :
    parameter_value_metadata_cascading_ids ∅ cache = ⊥ := by
  rw [parameter_value_metadata_cascading_ids, non_referenced_empty, tablesIds_empty,
    merge_bot_left]

theorem parameter_value_empty (cache : Cache) :
    parameter_value_cascading_ids ∅ cache = ⊥ := by
  rw [parameter_value_cascading_ids, selIds_false _ _ _ (fun x => by simp),
    parameter_value_metadata_empty, tablesIds_empty, merge_bot_left]

theorem parameter_value_list_empty (cache : Cache) :
    parameter_value_list_cascading_ids ∅ cache = ⊥ := by
  rw [parameter_value_list_cascading_ids, selIds_false _ _ _ (fun x => by simp),
    feature_empty, tablesIds_empty, merge_bot_left]

theorem parameter_definition_empty (cache : Cache) :
    parameter_definition_cascading_ids ∅ cache = ⊥ := by
  rw [parameter_definition_cascading_ids, selIds_false _ _ _ (fun x => by simp),
    selIds_false _ _ _ (fun x => by simp), parameter_value_empty, feature_empty,
    tablesIds_empty, merge_bot_left, merge_bot_left]

theorem relationship_empty (cache : Cache) : relationship_cascading_ids ∅ cache = ⊥ := by
  rw [relationship_cascading_ids, selIds_false _ _ _ (fun x => by simp),
    selIds_false _ _ _ (fun x => by simp), selIds_false _ _ _ (fun x => by simp),
    parameter_value_empty, entity_group_empty, entity_metadata_empty, tablesIds_empty,
    merge_bot_left, merge_bot_left, merge_bot_left]

theorem relationship_class_empty (cache : Cache) :
    relationship_class_cascading_ids ∅ cache = ⊥ := by
  rw [relationship_class_cascading_ids, selIds_false _ _ _ (fun x => by simp),
    selIds_false _ _ _ (fun x => by simp), relationship_empty,
    parameter_definition_empty, tablesIds_empty, merge_bot_left, merge_bot_left]

theorem object_empty (cache : Cache) : object_cascading_ids ∅ cache = ⊥ := by
  rw [object_cascading_ids, selIds_false _ _ _ (fun x => by simp),
    selIds_false _ _ _ (fun x => by simp), selIds_false _ _ _ (fun x => by simp),
    selIds_false _ _ _ (fun x => by simp), relationship_empty, parameter_value_empty,
    entity_group_empty, entity_metadata_empty, tablesIds_empty, merge_bot_left,
    merge_bot_left, merge_bot_left, merge_bot_left]

theorem object_class_empty (cache : Cache) : object_class_cascading_ids ∅ cache = ⊥ := by
  rw [object_class_cascading_ids, selIds_false _ _ _ (fun x => by simp),
    selIds_false _ _ _ (fun x => by simp), selIds_false _ _ _ (fun x => by simp),
    object_empty, relationship_class_empty, parameter_definition_empty, tablesIds_empty,
    merge_bot_left, merge_bot_left, merge_bot_left]

theorem alternative_empty (cache : Cache) : alternative_cascading_ids ∅ cache = ⊥ := by
  rw [alternative_cascading_ids, selIds_false _ _ _ (fun x => by simp),
    selIds_false _ _ _ (fun x => by simp), parameter_value_empty,
    scenario_alternatives_empty, tablesIds_empty, merge_bot_left, merge_bot_left]

theorem scenario_empty (cache : Cache) : scenario_cascading_ids ∅ cache = ⊥ := by
  rw [scenario_cascading_ids, selIds_false _ _ _ (fun x => by simp),
    scenario_alternatives_empty, tablesIds_empty, merge_bot_left]

theorem metadata_empty (cache : Cache) : metadata_cascading_ids ∅ cache = ⊥ := by
  rw [metadata_cascading_ids, selIds_false _ _ _ (fun x => by simp),
    selIds_false _ _ _ (fun x => by simp), tablesIds_empty, tablesIds_empty,
    tablesIds_empty, merge_bot_left, merge_bot_left]

theorem metadata_removed_counts_mono (cache : Cache) (tb : MetadataTable)
    {s t : Finset Nat} (h : s ⊆ t) (m : Nat) :
    metadata_removed_counts cache tb s m ≤ metadata_removed_counts cache tb t m := by
  cases tb <;>
    · rw [metadata_removed_counts, metadata_removed_counts]
      apply List.countP_mono_left
      intro x _ hx
      simp only [Bool.and_eq_true, decide_eq_true_eq] at hx ⊢
      exact ⟨h hx.1, hx.2⟩

theorem non_referenced_mono (tb : MetadataTable) (cache : Cache) {s t : Finset Nat}
    (h : s ⊆ t) :
    non_referenced_metadata_ids s tb cache ≤ non_referenced_metadata_ids t tb cache := by
  intro tn
  cases tn <;> try exact le_rfl
  show Finset.filter _ _ ≤ Finset.filter _ _
  rw [Finset.le_iff_subset]
  intro m hm
  rw [Finset.mem_filter] at hm ⊢
  refine ⟨hm.1, ?_⟩
  have := metadata_removed_counts_mono cache tb h m
  have h2 := hm.2
  simp only [decide_eq_true_eq] at h2 ⊢
  omega

theorem merge_mono {a b c d : TableIds} (h1 : a ≤ c) (h2 : b ≤ d) :
    merge a b ≤ merge c d := by
  rw [merge_eq_sup, merge_eq_sup]
  exact sup_le_sup h1 h2

theorem entity_metadata_mono (cache : Cache) {s t : Finset Nat} (h : s ⊆ t) :
    entity_metadata_cascading_ids s cache ≤ entity_metadata_cascading_ids t cache := by
  rw [entity_metadata_cascading_ids, entity_metadata_cascading_ids]
  exact merge_mono (tablesIds_mono _ h) (non_referenced_mono _ cache h)

theorem parameter_value_metadata_mono (cache : Cache) {s t : Finset Nat} (h : s ⊆ t) :
    parameter_value_metadata_cascading_ids s cache ≤
      parameter_value_metadata_cascading_ids t cache := by
  rw [parameter_value_metadata_cascading_ids, parameter_value_metadata_cascading_ids]
  exact merge_mono (tablesIds_mono _ h) (non_referenced_mono _ cache h)

theorem parameter_value_mono (cache : Cache) {s t : Finset Nat} (h : s ⊆ t) :
    parameter_value_cascading_ids s cache ≤ parameter_value_cascading_ids t cache := by
  rw [parameter_value_cascading_ids, parameter_value_cascading_ids]
  refine merge_mono (tablesIds_mono _ h) (parameter_value_metadata_mono cache ?_)
  apply selIds_mono
  intro x hx
  simp only [decide_eq_true_eq] at hx ⊢
  exact h hx

theorem entity_group_mono (cache : Cache) {s t : Finset Nat} (h : s ⊆ t) :
    entity_group_cascading_ids s cache ≤ entity_group_cascading_ids t cache := by
  rw [entity_group_cascading_ids, entity_group_cascading_ids]
  exact tablesIds_mono _ h

theorem relationship_mono (cache : Cache) {s t : Finset Nat} (h : s ⊆ t) :
    relationship_cascading_ids s cache ≤ relationship_cascading_ids t cache := by
  rw [relationship_cascading_ids, relationship_cascading_ids]
  refine merge_mono (merge_mono (merge_mono (tablesIds_mono _ h)
    (parameter_value_mono cache ?_)) (entity_group_mono cache ?_))
    (entity_metadata_mono cache ?_)
  · apply selIds_mono
    intro x hx
    simp only [decide_eq_true_eq] at hx ⊢
    exact h hx
  · apply selIds_mono
    intro x hx
    simp only [Bool.or_eq_true, decide_eq_true_eq] at hx ⊢
    rcases hx with hx | hx
    · exact Or.inl (h hx)
    · exact Or.inr (h hx)
  · apply selIds_mono
    intro x hx
    simp only [decide_eq_true_eq] at hx ⊢
    exact h hx

theorem object_mono (cache : Cache) {s t : Finset Nat} (h : s ⊆ t) :
    object_cascading_ids s cache ≤ object_cascading_ids t cache := by
  rw [object_cascading_ids, object_cascading_ids]
  refine merge_mono (merge_mono (merge_mono (merge_mono (tablesIds_mono _ h)
    (relationship_mono cache ?_)) (parameter_value_mono cache ?_))
    (entity_group_mono cache ?_)) (entity_metadata_mono cache ?_)
  · apply selIds_mono
    intro x hx
    simp only [List.any_eq_true, decide_eq_true_eq] at hx ⊢
    obtain ⟨c, hc, hcm⟩ := hx
    exact ⟨c, hc, h hcm⟩
  · apply selIds_mono
    intro x hx
    simp only [decide_eq_true_eq] at hx ⊢
    exact h hx
  · apply selIds_mono
    intro x hx
    simp only [Bool.or_eq_true, decide_eq_true_eq] at hx ⊢
    rcases hx with hx | hx
    · exact Or.inl (h hx)
    · exact Or.inr (h hx)
  · apply selIds_mono
    intro x hx
    simp only [decide_eq_true_eq] at hx ⊢
    exact h hx

theorem oc_le_cascading_ids (roots : Roots) (cache : Cache) :
    object_class_cascading_ids roots.object_class cache ≤ cascading_ids roots cache := by
  rw [cascading_ids]
  simp only [merge_eq_sup]
  iterate 18 apply le_sup_of_le_left
  exact le_sup_right

def c4cache : Cache :=
  { object := [⟨10, 1⟩, ⟨30, 3⟩]
    relationship_class := [⟨2, [1, 3]⟩]
    relationship := [⟨20, 2, [10, 30]⟩]
    parameter_value := [⟨100, 10, 50, 7⟩] }

/-- C4 counterexample: object class 1 (tank) has object 10 with parameter value 100,
and object 10 is a member of relationship 20 whose class 2 (pipe) lists class 1 among
its member classes.  The cascade for removing class 1 includes object 10, value 100
and relationship 20 as the claim states, but — contrary to the claim — it does
include class 2 in the relationship_class set: member-class removal cascades
sideways into relationship classes that reference the removed class. -/
theorem C4_sideways_cascade_counterexample :
    10 ∈ cascading_ids { object_class := {1} } c4cache TableName.object ∧
    100 ∈ cascading_ids { object_class := {1} } c4cache TableName.parameter_value ∧
    20 ∈ cascading_ids { object_class := {1} } c4cache TableName.relationship ∧
    2 ∈ cascading_ids { object_class := {1} } c4cache TableName.relationship_class := by
  decide

/-- C4 (amended): for every cache in which class C has an instance object O, O has
parameter value P and is a member of relationship R whose class RC lists C among its
member classes, the cascade rooted at object_class {C} contains O, P and R — and it
also contains RC in the relationship_class set, because
`_object_class_cascading_ids` recurses into every relationship class whose
member-class list intersects the removed ids. -/
theorem C4_object_class_cascade (cache : Cache) (C : Nat) (orow : ObjectCacheRow)
    (prow : ParameterValueCacheRow) (rrow : RelationshipCacheRow)
    (rcrow : RelationshipClassCacheRow)
    (ho : orow ∈ cache.object) (hoc : orow.class_id = C)
    (hp : prow ∈ cache.parameter_value) (hpe : prow.entity_id = orow.id)
    (hr : rrow ∈ cache.relationship) (hrm : orow.id ∈ rrow.object_id_list)
    (hrc : rcrow ∈ cache.relationship_class) (hrcm : C ∈ rcrow.object_class_id_list) :
    orow.id ∈ cascading_ids { object_class := {C} } cache TableName.object ∧
    prow.id ∈ cascading_ids { object_class := {C} } cache TableName.parameter_value ∧
    rrow.id ∈ cascading_ids { object_class := {C} } cache TableName.relationship ∧
    rcrow.id ∈ cascading_ids { object_class := {C} } cache TableName.relationship_class := by
  have hle := oc_le_cascading_ids { object_class := {C} } cache
  have hOinObjs : orow.id ∈ selIds cache.object (fun x => x.id)
      (fun x => decide (x.class_id ∈ ({C} : Finset Nat))) :=
    mem_selIds _ _ _ orow ho (by simp [hoc])
  refine ⟨hle TableName.object ?_, hle TableName.parameter_value ?_,
    hle TableName.relationship ?_, hle TableName.relationship_class ?_⟩
  · simp only [object_class_cascading_ids, object_cascading_ids, merge]
    refine Finset.mem_union_left _ (Finset.mem_union_left _ (Finset.mem_union_right _
      (Finset.mem_union_left _ (Finset.mem_union_left _ (Finset.mem_union_left _
        (Finset.mem_union_left _ ?_))))))
    simpa [tablesIds] using hOinObjs
  · simp only [object_class_cascading_ids, object_cascading_ids,
      parameter_value_cascading_ids, merge]
    refine Finset.mem_union_left _ (Finset.mem_union_left _ (Finset.mem_union_right _
      (Finset.mem_union_left _ (Finset.mem_union_left _ (Finset.mem_union_right _
        (Finset.mem_union_left _ ?_))))))
    have : prow.id ∈ selIds cache.parameter_value (fun x => x.id)
        (fun x => decide (x.entity_id ∈ selIds cache.object (fun y => y.id)
          (fun y => decide (y.class_id ∈ ({C} : Finset Nat))))) :=
      mem_selIds _ _ _ prow hp
        (by simp only [decide_eq_true_eq]; rw [hpe]; exact hOinObjs)
    simpa [tablesIds] using this
  · simp only [object_class_cascading_ids, object_cascading_ids,
      relationship_cascading_ids, merge]
    refine Finset.mem_union_left _ (Finset.mem_union_left _ (Finset.mem_union_right _
      (Finset.mem_union_left _ (Finset.mem_union_left _ (Finset.mem_union_left _
        (Finset.mem_union_right _ (Finset.mem_union_left _ (Finset.mem_union_left _
          (Finset.mem_union_left _ ?_)))))))))
    have : rrow.id ∈ selIds cache.relationship (fun x => x.id)
        (fun x => x.object_id_list.any (fun c => decide (c ∈ selIds cache.object
          (fun y => y.id) (fun y => decide (y.class_id ∈ ({C} : Finset Nat)))))) := by
      refine mem_selIds _ _ _ rrow hr ?_
      rw [List.any_eq_true]
      exact ⟨orow.id, hrm, by simpa using hOinObjs⟩
    simpa [tablesIds] using this
  · simp only [object_class_cascading_ids, relationship_class_cascading_ids, merge]
    refine Finset.mem_union_left _ (Finset.mem_union_right _ (Finset.mem_union_left _
      (Finset.mem_union_left _ ?_)))
    have : rcrow.id ∈ selIds cache.relationship_class (fun x => x.id)
        (fun x => x.object_class_id_list.any (fun c => decide (c ∈ ({C} : Finset Nat)))) := by
      refine mem_selIds _ _ _ rcrow hrc ?_
      rw [List.any_eq_true]
      exact ⟨C, hrcm, by simp⟩
    simpa [tablesIds] using this

theorem C4_object_class_cascade_witness :
    10 ∈ cascading_ids { object_class := {1} } c4cache TableName.object ∧
    100 ∈ cascading_ids { object_class := {1} } c4cache TableName.parameter_value ∧
    20 ∈ cascading_ids { object_class := {1} } c4cache TableName.relationship ∧
    2 ∈ cascading_ids { object_class := {1} } c4cache TableName.relationship_class :=
  C4_object_class_cascade c4cache 1 ⟨10, 1⟩ ⟨100, 10, 50, 7⟩ ⟨20, 2, [10, 30]⟩
    ⟨2, [1, 3]⟩ (by decide) (by decide) (by decide) (by decide) (by decide) (by decide)
    (by decide) (by decide)

/-- C5: cascade resolution is path-independent — with the same preloaded cache,
resolving the roots (object_class {A}) yields exactly the same per-table id sets as
resolving (object_class {A}, object {E}) when E is an object of class A already in
the cache: the object handler applied to {E} is absorbed by the object-class
handler's own recursion into A's objects, because results are merged by pointwise
set union and every handler is monotone (hence idempotent under overlapping
inputs). -/
theorem C5_cascade_path_independent (cache : Cache) (A : Nat) (erow : ObjectCacheRow)
    (he : erow ∈ cache.object) (hclass : erow.class_id = A) :
    cascading_ids { object_class := {A}, object := {erow.id} } cache =
      cascading_ids { object_class := {A} } cache := by
  have hsub : ({erow.id} : Finset Nat) ⊆ selIds cache.object (fun x => x.id)
      (fun x => decide (x.class_id ∈ ({A} : Finset Nat))) := by
    intro i hi
    rw [Finset.mem_singleton] at hi
    subst hi
    exact mem_selIds _ _ _ erow he (by simp [hclass])
  have hmono : object_cascading_ids {erow.id} cache ≤
      object_class_cascading_ids {A} cache := by
    refine le_trans (object_mono cache hsub) ?_
    rw [object_class_cascading_ids]
    simp only [merge_eq_sup]
    exact le_sup_of_le_left (le_sup_of_le_left le_sup_right)
  have habs : merge (merge (fun _ => ∅) (object_class_cascading_ids {A} cache))
      (object_cascading_ids {erow.id} cache) =
      merge (merge (fun _ => ∅) (object_class_cascading_ids {A} cache))
        (object_cascading_ids ∅ cache) := by
    rw [object_empty, merge_bot_right, merge_eq_sup, merge_eq_sup]
    exact sup_eq_left.mpr (hmono.trans le_sup_right)
  rw [cascading_ids, cascading_ids]
  dsimp only
  rw [habs]

theorem C5_cascade_path_independent_witness :
    cascading_ids { object_class := {1}, object := {10} } c4cache =
      cascading_ids { object_class := {1} } c4cache :=
  C5_cascade_path_independent c4cache 1 ⟨10, 1⟩ (by decide) (by decide)

theorem cascading_ids_entity_metadata_only (S : Finset Nat) (cache : Cache) :
    cascading_ids { entity_metadata := S } cache =
      entity_metadata_cascading_ids S cache := by
  rw [cascading_ids]
  dsimp only
  rw [object_class_empty, object_empty, relationship_class_empty, relationship_empty,
    entity_group_empty, parameter_definition_empty, parameter_value_empty,
    parameter_value_list_empty, list_value_empty, alternative_empty, scenario_empty,
    scenario_alternatives_empty, feature_empty, tool_empty, tool_feature_empty,
    tool_feature_method_empty, metadata_empty, parameter_value_metadata_empty,
    emptyIds_eq_bot]
  simp only [merge_bot_left, merge_bot_right]

theorem countP_le_one_of_nodup {α : Type} (l : List α) (f : α → Nat) (k : Nat)
    (hnd : (l.map f).Nodup) : l.countP (fun y => decide (f y = k)) ≤ 1 := by
  induction l with
  | nil => simp
  | cons a rest ih =>
    simp only [List.map_cons, List.nodup_cons] at hnd
    rw [List.countP_cons]
    by_cases h : f a = k
    · have hz : rest.countP (fun y => decide (f y = k)) = 0 := by
        rw [List.countP_eq_zero]
        intro y hy
        simp only [decide_eq_true_eq]
        intro hk
        apply hnd.1
        have : f y ∈ rest.map f := List.mem_map_of_mem f hy
        rw [hk, ← h] at this
        exact this
      simp [h, hz]
    · simpa [h] using ih hnd.2

theorem two_le_countP {α : Type} [DecidableEq α] (l : List α) (p : α → Bool) (a b : α)
    (ha : a ∈ l) (hb : b ∈ l) (hab : a ≠ b) (hpa : p a = true) (hpb : p b = true) :
    2 ≤ l.countP p := by
  have hsub : ({a, b} : Finset α) ⊆ (l.filter p).toFinset := by
    intro x hx
    rw [List.mem_toFinset, List.mem_filter]
    rcases Finset.mem_insert.mp hx with rfl | hx
    · exact ⟨ha, hpa⟩
    · rw [Finset.mem_singleton] at hx
      subst hx
      exact ⟨hb, hpb⟩
  have h1 : ({a, b} : Finset α).card = 2 := Finset.card_pair hab
  have h2 := Finset.card_le_card hsub
  have h3 := (l.filter p).toFinset_card_le
  rw [List.countP_eq_length_filter]
  omega

/-- C6: metadata records are reference-counted in cascade resolution over the
entity-metadata join table the claim cites: when metadata record M is referenced by
exactly two join rows, the cascade whose removal set contains only the first join
does not include M in the resulting metadata set (its remaining count is still
positive), while the cascade whose removal set contains both joins does include M
(the handler decrements M's usage count by the removed joins and includes M exactly
when the remainder reaches zero). -/
theorem C6_metadata_refcount (cache : Cache) (e1 e2 : EntityMetadataCacheRow) (M : Nat)
    (he1 : e1 ∈ cache.entity_metadata) (he2 : e2 ∈ cache.entity_metadata)
    (hne : e1.id ≠ e2.id) (hm1 : e1.metadata_id = M) (hm2 : e2.metadata_id = M)
    (hcem : cache.entity_metadata.countP (fun x => x.metadata_id = M) = 2)
    (hpvm : cache.parameter_value_metadata.countP (fun x => x.metadata_id = M) = 0) :
    ((cache.entity_metadata.map (fun x => x.id)).Nodup →
      M ∉ cascading_ids { entity_metadata := {e1.id} } cache TableName.metadata) ∧
    M ∈ cascading_ids { entity_metadata := {e1.id, e2.id} } cache TableName.metadata := by
  have husage : metadata_usage_counts cache M = 2 := by
    rw [metadata_usage_counts, hcem, hpvm]
  have hreferenced : M ∈ referenced_metadata_ids cache := by
    rw [referenced_metadata_ids]
    refine Finset.mem_union_left _ ?_
    rw [List.mem_toFinset]
    exact hm1 ▸ List.mem_map_of_mem (fun x => x.metadata_id) he1
  constructor
  · intro hnd
    rw [cascading_ids_entity_metadata_only]
    simp only [entity_metadata_cascading_ids, merge, non_referenced_metadata_ids,
      tablesIds, Finset.mem_union, Finset.mem_filter]
    have hrem : metadata_removed_counts cache .entityMetadata {e1.id} M ≤ 1 := by
      rw [metadata_removed_counts]
      refine le_trans (List.countP_mono_left ?_) (countP_le_one_of_nodup
        cache.entity_metadata (fun x => x.id) e1.id hnd)
      intro x _ hx
      simp only [Bool.and_eq_true, decide_eq_true_eq, Finset.mem_singleton] at hx ⊢
      exact hx.1
    intro hcon
    rcases hcon with hcon | hcon
    · simp at hcon
    · omega
  · rw [cascading_ids_entity_metadata_only]
    simp only [entity_metadata_cascading_ids, merge, non_referenced_metadata_ids,
      tablesIds, Finset.mem_union, Finset.mem_filter]
    refine Or.inr ⟨hreferenced, ?_⟩
    have hne12 : e1 ≠ e2 := fun he => hne (he ▸ rfl)
    have hrem : 2 ≤ metadata_removed_counts cache .entityMetadata {e1.id, e2.id} M := by
      rw [metadata_removed_counts]
      refine two_le_countP cache.entity_metadata _ e1 e2 he1 he2 hne12 ?_ ?_
      · simp [hm1]
      · simp [hm2]
    have hremle : metadata_removed_counts cache .entityMetadata {e1.id, e2.id} M ≤
        metadata_usage_counts cache M := by
      rw [metadata_removed_counts, metadata_usage_counts]
      have := List.countP_mono_left (l := cache.entity_metadata)
        (p := fun x => decide (x.id ∈ ({e1.id, e2.id} : Finset Nat)) &&
          decide (x.metadata_id = M))
        (q := fun x => decide (x.metadata_id = M))
        (fun x _ hx => by
          simp only [Bool.and_eq_true, decide_eq_true_eq] at hx ⊢
          exact hx.2)
      omega
    omega

theorem C6_metadata_refcount_witness :
    (77 ∉ cascading_ids { entity_metadata := {41} }
      { entity_metadata := [⟨41, 10, 77⟩, ⟨42, 11, 77⟩] } TableName.metadata) ∧
    77 ∈ cascading_ids { entity_metadata := {41, 42} }
      { entity_metadata := [⟨41, 10, 77⟩, ⟨42, 11, 77⟩] } TableName.metadata := by
  have h := C6_metadata_refcount { entity_metadata := [⟨41, 10, 77⟩, ⟨42, 11, 77⟩] }
    ⟨41, 10, 77⟩ ⟨42, 11, 77⟩ 77 (by decide) (by decide) (by decide) (by decide)
    (by decide) (by decide) (by decide)
  exact ⟨h.1 (by decide), h.2⟩

end SpineDB
